import Mathlib

/-!
Verification development for the AItradeQ trading repository.

The development shallowly embeds the backtest engine
(src/lib/trading/engine.ts: the indicator library, the BacktestEngine
class and the live TradingEngine.executeOrder path), the risk validator
(Validator in the error-handler module) and the DeepSeek response parser
(src/lib/ai/deepseek.ts, parseDecision) into Lean, and proves or refutes
the claims of the specification against that embedding.

Modelling conventions:
- JavaScript numbers are modelled as exact rationals; floating-point
  rounding is not modelled.
- The NaN "not yet available" marker used by the indicator library is
  modelled by Option: none stands for NaN, some x for the numeric value x.
  Inputs to the indicator functions are plain rationals (real price data),
  and with a lookback period of at least 1 every arithmetic step of the
  source produces a real number, so the only NaN values in indicator
  output are the explicitly pushed warm-up markers; the Option embedding
  is exact on that domain.
- Math.sqrt is modelled by Rat.sqrt.  The square roots computed by the
  source (Bollinger band widths, return standard deviations) feed only
  numeric report fields and the text prompt of the decision oracle; no
  claim below depends on their values, only on where they appear.
- The decision oracle (an awaited HTTP call in the source) is modelled as
  a pure function parameter from the snapshot type to the decision type,
  per the specification, which treats it as an external black box
  consumed at its interface.
- A thrown JavaScript error is modelled by the error branch of Except.
-/

set_option maxRecDepth 200000

namespace AItradeQ

/-- JsOr models the JavaScript expression (x || d) for an optional numeric
field: an absent value, or a present value equal to 0 (falsy), yields the
default d. -/
def jsOr (x : Option ℚ) (d : ℚ) : ℚ :=
  match x with
  | none => d
  | some v => if v = 0 then d else v

/-- jsRound models JavaScript Math.round: round half toward positive
infinity, the floor of x + 1/2 (Rat.floor is the computable floor). -/
def jsRound (x : ℚ) : ℤ := Rat.floor (x + 1 / 2)

/-! ## Indicator library (src/lib/indicators/technical.ts, bundled into
src/lib/trading/engine.ts).  Output lists use none for the NaN warm-up
marker. -/

/-- Kline record of the indicator module: open, high, low, close, volume
and a timestamp. -/
structure IndKline where
  mkKline ::
  kopen : ℚ
  high : ℚ
  low : ℚ
  close : ℚ
  volume : ℚ
  timestamp : ℕ
deriving DecidableEq

/-- calculateSMA from the source: for each index i, NaN while
i < period - 1, otherwise the arithmetic mean of the trailing period
values data.slice(i - period + 1, i + 1). -/
def calculateSMA (data : List ℚ) (period : ℕ) : List (Option ℚ) :=
  (List.range data.length).map fun i =>
    if i < period - 1 then none
    else some ((((data.drop (i + 1 - period)).take period).sum) / (period : ℚ))

/-- Loop body of calculateEMA: the source walks the data with index i and
running accumulator ema, pushing NaN while i < period - 1, the seed at
i = period - 1, and the recurrence (data[i] - ema) * multiplier + ema
afterwards. -/
def emaLoop (m : ℚ) (period : ℕ) : List ℚ → ℕ → ℚ → List (Option ℚ)
  | [], _, _ => []
  | x :: xs, i, ema =>
    if i < period - 1 then none :: emaLoop m period xs (i + 1) ema
    else if i = period - 1 then some ema :: emaLoop m period xs (i + 1) ema
    else
      let e := (x - ema) * m + ema
      some e :: emaLoop m period xs (i + 1) e

/-- calculateEMA from the source: multiplier 2 / (period + 1), seeded with
the simple average of the first period values. -/
def calculateEMA (data : List ℚ) (period : ℕ) : List (Option ℚ) :=
  emaLoop (2 / ((period : ℚ) + 1)) period data 0 (((data.take period).sum) / (period : ℚ))

/-- calculateRSI from the source: price changes are data[i] - data[i-1];
for each index i, NaN while i < period, otherwise the rolling-mean RSI of
changes.slice(i - period, i), saturating at 100 when the average loss is
zero. -/
def calculateRSI (data : List ℚ) (period : ℕ) : List (Option ℚ) :=
  let changes := (data.zip (data.drop 1)).map fun p => p.2 - p.1
  (List.range data.length).map fun i =>
    if i < period then none
    else
      let recentChanges := (changes.drop (i - period)).take period
      let gains := recentChanges.filter fun c => 0 < c
      let losses := (recentChanges.filter fun c => c < 0).map fun c => |c|
      let avgGain := if gains.length > 0 then gains.sum / (period : ℚ) else 0
      let avgLoss := if losses.length > 0 then losses.sum / (period : ℚ) else 0
      if avgLoss = 0 then some 100
      else some (100 - 100 / (1 + avgGain / avgLoss))

/-- Signal-line fill loop of calculateMACD.  The source walks the macd
series keeping a cursor into the compacted signal EMA; at a NaN macd entry
it pushes NaN, otherwise it pushes signalEMA[cursor] || NaN, under which
an out-of-range access, a NaN value and a zero value (all falsy) become
NaN. -/
def fillSignal (signalEMA : List (Option ℚ)) : List (Option ℚ) → ℕ → List (Option ℚ)
  | [], _ => []
  | none :: ms, j => none :: fillSignal signalEMA ms j
  | some _ :: ms, j =>
    (match signalEMA.get? j with
     | some (some x) => if x = 0 then none else some x
     | _ => none) :: fillSignal signalEMA ms (j + 1)

/-- calculateMACD from the source: macd line is fast EMA minus slow EMA
with NaN propagation; the signal line is the EMA of the non-NaN macd
values re-aligned by fillSignal; the histogram is their difference with
NaN propagation. -/
def calculateMACD (data : List ℚ) (fastPeriod slowPeriod signalPeriod : ℕ) :
    List (Option ℚ) × List (Option ℚ) × List (Option ℚ) :=
  let fastEMA := calculateEMA data fastPeriod
  let slowEMA := calculateEMA data slowPeriod
  let macd := (fastEMA.zip slowEMA).map fun p =>
    match p.1, p.2 with
    | some a, some b => some (a - b)
    | _, _ => none
  let validMacd := macd.filterMap id
  let signalEMA := calculateEMA validMacd signalPeriod
  let signal := fillSignal signalEMA macd 0
  let histogram := (macd.zip signal).map fun p =>
    match p.1, p.2 with
    | some a, some b => some (a - b)
    | _, _ => none
  (macd, signal, histogram)

/-- calculateBollingerBands from the source: the middle band is the SMA;
where it is NaN both outer bands are NaN, otherwise the outer bands are
mean plus and minus stdDev standard deviations of the same trailing
window (variance divided by period, square root per the Math.sqrt
model). -/
def calculateBollingerBands (data : List ℚ) (period : ℕ) (stdDev : ℚ) :
    List (Option ℚ) × List (Option ℚ) × List (Option ℚ) :=
  let middle := calculateSMA data period
  let pairs := (List.range data.length).map fun i =>
    match middle.getD i none with
    | none => (none, none)
    | some mean =>
      let slice := ((data.drop (i + 1 - period)).take period)
      let variance := ((slice.map fun v => (v - mean) ^ 2).sum) / (period : ℚ)
      let std := Rat.sqrt variance
      (some (mean + stdDev * std), some (mean - stdDev * std))
  ((pairs.map Prod.fst), middle, (pairs.map Prod.snd))

/-- True-range list of calculateATR: high - low for the first bar, then
the maximum of high - low, the absolute gap from the previous close to
the high and to the low. -/
def trueRanges : List IndKline → List ℚ
  | [] => []
  | k0 :: rest =>
    (k0.high - k0.low) ::
      ((k0 :: rest).zip rest).map fun p =>
        max (p.2.high - p.2.low) (max |p.2.high - p.1.close| |p.2.low - p.1.close|)

/-- calculateATR from the source: the EMA of the true ranges. -/
def calculateATR (klines : List IndKline) (period : ℕ) : List (Option ℚ) :=
  calculateEMA (trueRanges klines) period

/-- findSupportResistance from the source: for each index i from lookback
to length - lookback - 1, the bar is a support when its low is minimal
over the symmetric window and a resistance when its high is maximal. -/
def findSupportResistance (klines : List IndKline) (lookback : ℕ) : List ℚ × List ℚ :=
  let idxs := (List.range klines.length).filter fun i =>
    lookback ≤ i ∧ i + lookback < klines.length
  let body := idxs.filterMap fun i =>
    match klines.get? i with
    | none => none
    | some current =>
      let slice := (klines.drop (i - lookback)).take (2 * lookback + 1)
      some (current, slice)
  ((body.filter fun p => p.2.all fun k => p.1.low ≤ k.low).map fun p => p.1.low,
   (body.filter fun p => p.2.all fun k => k.high ≤ p.1.high).map fun p => p.1.high)

/-- Trend label of identifyTrend. -/
inductive Trend where
  | UPTREND
  | DOWNTREND
  | SIDEWAYS
deriving DecidableEq

/-- identifyTrend from the source: compares the final values of the three
EMAs; any NaN input yields SIDEWAYS. -/
def identifyTrend (ema20 ema50 ema200 : List (Option ℚ)) : Trend :=
  match ema20.getLastD none, ema50.getLastD none, ema200.getLastD none with
  | some a, some b, some c =>
    if a > b ∧ b > c then .UPTREND
    else if a < b ∧ b < c then .DOWNTREND
    else .SIDEWAYS
  | _, _, _ => .SIDEWAYS

/-- Result record of calculateAllIndicators. -/
structure AllIndicators where
  closes : List ℚ
  ema20 : List (Option ℚ)
  ema50 : List (Option ℚ)
  ema200 : List (Option ℚ)
  rsi : List (Option ℚ)
  macdLine : List (Option ℚ)
  macdSignal : List (Option ℚ)
  macdHistogram : List (Option ℚ)
  bollingerUpper : List (Option ℚ)
  bollingerMiddle : List (Option ℚ)
  bollingerLower : List (Option ℚ)
  atr : List (Option ℚ)
  trend : Trend
  support : List ℚ
  resistance : List ℚ

/-- calculateAllIndicators from the source, with its hard-coded periods:
EMA 20/50/200, RSI 14, MACD 12/26/9, Bollinger 20 with 2 standard
deviations, ATR 14, support and resistance lookback 20. -/
def calculateAllIndicators (klines : List IndKline) : AllIndicators :=
  let closes := klines.map fun k => k.close
  let macd := calculateMACD closes 12 26 9
  let bb := calculateBollingerBands closes 20 2
  let sr := findSupportResistance klines 20
  let e20 := calculateEMA closes 20
  let e50 := calculateEMA closes 50
  let e200 := calculateEMA closes 200
  { closes := closes
    ema20 := e20
    ema50 := e50
    ema200 := e200
    rsi := calculateRSI closes 14
    macdLine := macd.1
    macdSignal := macd.2.1
    macdHistogram := macd.2.2
    bollingerUpper := bb.1
    bollingerMiddle := bb.2.1
    bollingerLower := bb.2.2
    atr := calculateATR klines 14
    trend := identifyTrend e20 e50 e200
    support := sr.1
    resistance := sr.2 }

/-- getLatest from the source: walk the series from the end and return
the first non-NaN value, or null (none) when there is none. -/
def getLatest : List (Option ℚ) → Option ℚ
  | [] => none
  | x :: xs =>
    match getLatest xs with
    | some v => some v
    | none => x

/-! ## Decision oracle interface (src/lib/ai/deepseek.ts). -/

/-- Action component of an oracle decision. -/
inductive TradeAction where
  | BUY
  | SELL
  | HOLD
  | CLOSE
deriving DecidableEq

/-- AIDecisionOutput as consumed by the engines: a validated action, a
confidence, and optional risk parameters. -/
structure AIDecisionOutput where
  action : TradeAction
  confidence : ℚ
  reasoning : String
  positionSize : Option ℚ
  leverage : Option ℚ
  stopLoss : Option ℚ
  takeProfit : Option ℚ
deriving DecidableEq

/-- Indicator block of AIDecisionInput; a none field is a null produced
by getLatest. -/
structure IndicatorSnapshot where
  rsi : Option ℚ
  macd : Option ℚ
  macdSignal : Option ℚ
  macdHistogram : Option ℚ
  ema20 : Option ℚ
  ema50 : Option ℚ
  ema200 : Option ℚ
  bollingerUpper : Option ℚ
  bollingerMiddle : Option ℚ
  bollingerLower : Option ℚ
  atr : Option ℚ
deriving DecidableEq

/-- Account block of AIDecisionInput. -/
structure AccountSnapshot where
  balance : ℚ
  positions : ℕ
  totalValue : ℚ
  unrealizedPnL : ℚ
deriving DecidableEq

/-- Performance block of AIDecisionInput.  The source field sharpeRatio
is rendered here as sharpe. -/
structure PerformanceSnapshot where
  totalReturn : ℚ
  sharpe : ℚ
  winRate : ℚ
  totalTrades : ℕ
deriving DecidableEq

/-- Metadata block of AIDecisionInput. -/
structure MetadataSnapshot where
  timestamp : ℕ
  wakeupCount : ℕ
deriving DecidableEq

/-- AIDecisionInput: the market and account snapshot handed to the
decision oracle. -/
structure AIDecisionInput where
  symbol : String
  price : ℚ
  indicators : IndicatorSnapshot
  account : AccountSnapshot
  performance : PerformanceSnapshot
  metadata : MetadataSnapshot
deriving DecidableEq

/-! ## DeepSeekClient.parseDecision (src/lib/ai/deepseek.ts).

The regex extraction of a JSON block from the oracle text and JSON.parse
are modelled as an already parsed Option value: none stands for a
response with no JSON block or one JSON.parse rejects, some d for the
parsed object.  JSON values relevant to the parsed fields are modelled by
JsonValue; nested objects and arrays are collapsed into the opaque jobj
constructor, whose numeric coercion is NaN as for every plain object. -/

/-- JsonValue models a value of a parsed JSON field. -/
inductive JsonValue where
  | jnull
  | jbool (b : Bool)
  | jnum (q : ℚ)
  | jstr (s : String)
  | jobj
deriving DecidableEq

/-- JsNum models a JavaScript number: NaN or a numeric value. -/
inductive JsNum where
  | nan
  | num (q : ℚ)
deriving DecidableEq

/-- Digit list to numeral value, for the string-to-number coercion. -/
def digitsToNat : List Char → Option ℕ
  | [] => none
  | cs => cs.foldl (fun acc c =>
      match acc with
      | none => none
      | some n => if c.isDigit then some (n * 10 + (c.toNat - 48)) else none)
      (some 0)

/-- Decimal-numeral reading of a string: an optional sign, an integer
part and an optional fractional part.  Strings outside this grammar are
mapped to NaN; this covers the plain numerals JavaScript coerces and the
non-numeric words that coerce to NaN (exponent and hex forms and
surrounding whitespace are not modelled, and no claim depends on
them). -/
def jsStringToNumber (s : String) : JsNum :=
  if s = "" then .num 0
  else
    let cs := s.toList
    let (sign, body) : ℚ × List Char :=
      match cs with
      | '-' :: rest => (-1, rest)
      | '+' :: rest => (1, rest)
      | _ => (1, cs)
    match body.splitOn '.' with
    | [intPart] =>
      match digitsToNat intPart with
      | some n => .num (sign * n)
      | none => .nan
    | [intPart, fracPart] =>
      match digitsToNat intPart, digitsToNat fracPart with
      | some n, some f => .num (sign * ((n : ℚ) + (f : ℚ) / (10 : ℚ) ^ fracPart.length))
      | _, _ => .nan
    | _ => .nan

/-- Numeric coercion of a JSON value, per JavaScript ToNumber: null to 0,
booleans to 0 or 1, strings through the numeral grammar, plain objects to
NaN. -/
def toNumber : JsonValue → JsNum
  | .jnull => .num 0
  | .jbool b => .num (if b then 1 else 0)
  | .jnum q => .num q
  | .jstr s => jsStringToNumber s
  | .jobj => .nan

/-- Truthiness of a JSON value, per JavaScript: null, false, 0 and the
empty string are falsy. -/
def jsTruthy : JsonValue → Bool
  | .jnull => false
  | .jbool b => b
  | .jnum q => decide (q ≠ 0)
  | .jstr s => decide (s ≠ "")
  | .jobj => true

/-- Truthiness of a possibly absent field: undefined is falsy. -/
def jsTruthyOpt : Option JsonValue → Bool
  | none => false
  | some v => jsTruthy v

/-- Math.min on two JavaScript numbers: NaN absorbs. -/
def jsMin : JsNum → JsNum → JsNum
  | .num a, .num b => .num (min a b)
  | _, _ => .nan

/-- Math.max on two JavaScript numbers: NaN absorbs. -/
def jsMax : JsNum → JsNum → JsNum
  | .num a, .num b => .num (max a b)
  | _, _ => .nan

/-- Decision object as produced by JSON.parse: each expected field is
absent or a JSON value. -/
structure DecisionJson where
  action : Option JsonValue
  confidence : Option JsonValue
  reasoning : Option JsonValue
  positionSize : Option JsonValue
  leverage : Option JsonValue
  stopLoss : Option JsonValue
  takeProfit : Option JsonValue
deriving DecidableEq

/-- Raw result of parseDecision before any enum narrowing: the source
copies decision.action and decision.reasoning through unchecked, so both
stay JSON values here. -/
structure ParsedDecision where
  action : JsonValue
  confidence : JsNum
  reasoning : JsonValue
  positionSize : JsNum
  leverage : JsNum
  stopLoss : JsNum
  takeProfit : JsNum
deriving DecidableEq

/-- Fallback decision returned by parseDecision on any caught error. -/
def parseFallback : ParsedDecision :=
  { action := .jstr ("HOLD")
    confidence := .num 0
    reasoning := .jstr ("AI响应解析失败，保持观望")
    positionSize := .num 20
    leverage := .num 3
    stopLoss := .num 2
    takeProfit := .num 4 }

/-- Clamp of an optional numeric field in parseDecision: the source
writes Math.max(lo, Math.min(hi, field || dflt)), so an absent or falsy
field takes the default before the coercing min and max. -/
def clampField (o : Option JsonValue) (dflt lo hi : ℚ) : JsNum :=
  let v : JsNum := if jsTruthyOpt o then toNumber (o.getD .jnull) else .num dflt
  jsMax (.num lo) (jsMin (.num hi) v)

/-- parseDecision from the source: on a missing JSON block or parse error
the fallback; with a falsy action, an undefined confidence or a falsy
reasoning a thrown-and-caught error yields the fallback; otherwise action
and reasoning are copied through and the numeric fields are clamped. -/
def parseDecision (parsed : Option DecisionJson) : ParsedDecision :=
  match parsed with
  | none => parseFallback
  | some d =>
    if ¬ jsTruthyOpt d.action ∨ d.confidence = none ∨ ¬ jsTruthyOpt d.reasoning then
      parseFallback
    else
      { action := d.action.getD .jnull
        confidence := jsMax (.num 0) (jsMin (.num 100) (toNumber (d.confidence.getD .jnull)))
        reasoning := d.reasoning.getD .jnull
        positionSize := clampField d.positionSize 20 1 100
        leverage := clampField d.leverage 3 1 30
        stopLoss := clampField d.stopLoss 2 (1 / 2) 10
        takeProfit := clampField d.takeProfit 4 1 20 }

/-! ## Validator (error-handler module under src) and
TradingEngine.executeOrder (src/lib/trading/engine.ts). -/

/-- Position side. -/
inductive Side where
  | LONG
  | SHORT
deriving DecidableEq

/-- Error categories of TradingError raised on the executeOrder path. -/
inductive ErrorType where
  | VALIDATION_ERROR
  | TRADING_RISK_EXCEEDED
  | TRADING_INVALID_PARAMS
deriving DecidableEq

/-- Validator.validateRiskParams from the source: a balance under 20, a
notional value (balance times positionSize percent times leverage) under
20, or a positionSize over 100 throws, in that order. -/
def validateRiskParams (balance positionSize leverage : ℚ) : Except ErrorType Unit :=
  if balance < 20 then .error .TRADING_RISK_EXCEEDED
  else if balance * positionSize / 100 * leverage < 20 then .error .TRADING_INVALID_PARAMS
  else if positionSize > 100 then .error .TRADING_RISK_EXCEEDED
  else .ok ()

/-- Starts-with test on character lists. -/
def charsStartsWith : List Char → List Char → Bool
  | _, [] => true
  | [], _ :: _ => false
  | a :: as, b :: bs => a = b && charsStartsWith as bs

/-- Containment test on character lists. -/
def charsContains : List Char → List Char → Bool
  | [], sub => charsStartsWith [] sub
  | a :: as, sub => charsStartsWith (a :: as) sub || charsContains as sub

/-- String containment test used to model the JavaScript includes
method. -/
def strIncludes (s sub : String) : Bool := charsContains s.toList sub.toList

/-- TradingEngine.roundQuantity from the source: BTC and ETH symbols
round to 3 decimals, BNB and SOL to 1, the default to 3, with Math.round
semantics. -/
def roundQuantity (symbol : String) (quantity : ℚ) : ℚ :=
  if strIncludes symbol ("BTC") then (jsRound (quantity * 1000) : ℚ) / 1000
  else if strIncludes symbol ("ETH") then (jsRound (quantity * 1000) : ℚ) / 1000
  else if strIncludes symbol ("BNB") ∨ strIncludes symbol ("SOL") then
    (jsRound (quantity * 10) : ℚ) / 10
  else (jsRound (quantity * 1000) : ℚ) / 1000

/-- Order request forwarded to the exchange client by executeOrder; the
side records whether openLong or openShort is called. -/
structure OrderRequest where
  symbol : String
  side : Side
  quantity : ℚ
  leverage : ℚ
  stopLossPrice : ℚ
  takeProfitPrice : ℚ
deriving DecidableEq

/-- TradingEngine.executeOrder from the source: destructure the decision
with undefined-only defaults, validate risk parameters, reject a notional
value under 20 dollars, round the quantity, derive and round stop and
take-profit prices, then submit the order. -/
def executeOrder (cfgSymbol : String) (decision : AIDecisionOutput)
    (balance currentPrice : ℚ) : Except ErrorType OrderRequest :=
  let positionSize := decision.positionSize.getD 20
  let leverage := decision.leverage.getD 3
  let stopLoss := decision.stopLoss.getD 2
  let takeProfit := decision.takeProfit.getD 4
  match validateRiskParams balance positionSize leverage with
  | .error e => .error e
  | .ok _ =>
    let amount := balance * positionSize / 100
    let notionalValue := amount * leverage
    if notionalValue < 20 then .error .TRADING_INVALID_PARAMS
    else
      let rawQuantity := notionalValue / currentPrice
      let quantity := roundQuantity cfgSymbol rawQuantity
      let stopLossPrice :=
        if decision.action = .BUY then currentPrice * (1 - stopLoss / 100)
        else currentPrice * (1 + stopLoss / 100)
      let takeProfitPrice :=
        if decision.action = .BUY then currentPrice * (1 + takeProfit / 100)
        else currentPrice * (1 - takeProfit / 100)
      .ok { symbol := cfgSymbol
            side := if decision.action = .BUY then .LONG else .SHORT
            quantity := quantity
            leverage := leverage
            stopLossPrice := (jsRound (stopLossPrice * 100) : ℚ) / 100
            takeProfitPrice := (jsRound (takeProfitPrice * 100) : ℚ) / 100 }

/-! ## BacktestEngine (src/lib/trading/engine.ts). -/

/-- Kline record of the backtest engine, keyed by openTime. -/
structure Kline where
  openTime : ℕ
  kopen : ℚ
  high : ℚ
  low : ℚ
  close : ℚ
  volume : ℚ
deriving DecidableEq, Inhabited

/-- Conversion applied inside tryOpenPosition when handing historical
bars to the indicator library: openTime becomes timestamp. -/
def toIndKline (k : Kline) : IndKline :=
  { kopen := k.kopen, high := k.high, low := k.low, close := k.close,
    volume := k.volume, timestamp := k.openTime }

/-- Exit reasons the engine passes to closePosition.  BACKTEST_END is the
end-of-series forced close, named FORCED_CLOSE by the specification. -/
inductive ExitReason where
  | STOP_LOSS
  | TAKE_PROFIT
  | BACKTEST_END
deriving DecidableEq

/-- Open position of the backtest engine. -/
structure Position where
  side : Side
  entryPrice : ℚ
  entryTime : ℕ
  quantity : ℚ
  leverage : ℚ
  stopLoss : ℚ
  takeProfit : ℚ
deriving DecidableEq

/-- Closed trade record. -/
structure Trade where
  entryTime : ℕ
  exitTime : ℕ
  side : Side
  entryPrice : ℚ
  exitPrice : ℚ
  quantity : ℚ
  leverage : ℚ
  pnl : ℚ
  pnlPercent : ℚ
  commission : ℚ
  reason : ExitReason
deriving DecidableEq

/-- Equity curve point. -/
structure EquityPoint where
  time : ℕ
  equity : ℚ
deriving DecidableEq, Inhabited

/-- Drawdown curve point (percent drawdown). -/
structure DrawdownPoint where
  time : ℕ
  drawdown : ℚ
deriving DecidableEq

/-- BacktestConfig as passed to the constructor: commission and slippage
are optional. -/
structure BacktestConfig where
  symbol : String
  initialCapital : ℚ
  minConfidence : ℚ
  commission : Option ℚ
  slippage : Option ℚ
deriving DecidableEq

/-- Effective configuration after the constructor defaults: commission
defaults to 0.0004 and slippage to 0.0005 through the JavaScript
or-operator, so an explicit zero is also replaced. -/
structure EngineConfig where
  symbol : String
  initialCapital : ℚ
  minConfidence : ℚ
  commission : ℚ
  slippage : ℚ
deriving DecidableEq

/-- Constructor defaulting of the BacktestEngine. -/
def resolveConfig (c : BacktestConfig) : EngineConfig :=
  { symbol := c.symbol
    initialCapital := c.initialCapital
    minConfidence := c.minConfidence
    commission := jsOr c.commission (4 / 10000)
    slippage := jsOr c.slippage (5 / 10000) }

/-- Mutable state of the BacktestEngine while a run is in progress. -/
structure EngineState where
  currentCapital : ℚ
  currentPosition : Option Position
  trades : List Trade
  equityCurve : List EquityPoint
  maxEquity : ℚ
deriving DecidableEq

/-- Decision oracle as seen by the backtest loop: the awaited makeDecision
call, modelled per the specification as a black-box function from the
snapshot to a decision. -/
def Oracle : Type := AIDecisionInput → AIDecisionOutput

/-- getUnrealizedPnL from the source: zero when flat, otherwise the
side-aware price difference over the entry price times quantity times
entry price times leverage. -/
def getUnrealizedPnL (st : EngineState) (currentPrice : ℚ) : ℚ :=
  match st.currentPosition with
  | none => 0
  | some p =>
    let priceDiff :=
      match p.side with
      | .LONG => currentPrice - p.entryPrice
      | .SHORT => p.entryPrice - currentPrice
    priceDiff / p.entryPrice * (p.quantity * p.entryPrice) * p.leverage

/-- getCurrentEquity from the source: capital, plus unrealized pnl when a
position is open. -/
def getCurrentEquity (st : EngineState) (currentPrice : ℚ) : ℚ :=
  match st.currentPosition with
  | none => st.currentCapital
  | some _ => st.currentCapital + getUnrealizedPnL st currentPrice

/-- getCurrentPerformance from the source: zeros with no trades,
otherwise win rate, total return against initial capital, and a
mean-over-deviation ratio of per-trade percent returns. -/
def getCurrentPerformance (cfg : EngineConfig) (st : EngineState) : PerformanceSnapshot :=
  if st.trades.length = 0 then
    { totalReturn := 0, sharpe := 0, winRate := 0, totalTrades := 0 }
  else
    let wins := (st.trades.filter fun t => t.pnl > 0).length
    let winRate := (wins : ℚ) / (st.trades.length : ℚ) * 100
    let totalReturn := (st.currentCapital - cfg.initialCapital) / cfg.initialCapital * 100
    let returns := st.trades.map fun t => t.pnlPercent
    let avgReturn := returns.sum / (returns.length : ℚ)
    let stdDev := Rat.sqrt (((returns.map fun r => (r - avgReturn) ^ 2).sum) / (returns.length : ℚ))
    let sharpe := if stdDev > 0 then avgReturn / stdDev else 0
    { totalReturn := totalReturn, sharpe := sharpe, winRate := winRate,
      totalTrades := st.trades.length }

/-- checkStopLossTakeProfit from the source: for a long, a low at or
under the stop yields STOP_LOSS, else a high at or over the take-profit
yields TAKE_PROFIT; mirrored for a short; the stop check comes first in
both branches. -/
def checkStopLossTakeProfit (position : Option Position) (k : Kline) : Option ExitReason :=
  match position with
  | none => none
  | some p =>
    match p.side with
    | .LONG =>
      if k.low ≤ p.stopLoss then some .STOP_LOSS
      else if k.high ≥ p.takeProfit then some .TAKE_PROFIT
      else none
    | .SHORT =>
      if k.high ≥ p.stopLoss then some .STOP_LOSS
      else if k.low ≤ p.takeProfit then some .TAKE_PROFIT
      else none

/-- closePosition from the source: exit at the stored stop or take-profit
level for those reasons, else at the close adjusted adversely by
slippage; gross pnl is the side-aware price move over entry times
notional (quantity times entry price) times leverage; the exit commission
on quantity times exit price is subtracted; the trade is appended and the
position cleared. -/
def closePosition (cfg : EngineConfig) (st : EngineState) (k : Kline)
    (reason : ExitReason) : EngineState :=
  match st.currentPosition with
  | none => st
  | some p =>
    let exitPrice :=
      match reason with
      | .STOP_LOSS => p.stopLoss
      | .TAKE_PROFIT => p.takeProfit
      | .BACKTEST_END =>
        match p.side with
        | .LONG => k.close * (1 - cfg.slippage)
        | .SHORT => k.close * (1 + cfg.slippage)
    let notionalValue := p.quantity * p.entryPrice
    let priceDiff :=
      match p.side with
      | .LONG => exitPrice - p.entryPrice
      | .SHORT => p.entryPrice - exitPrice
    let grossPnL := priceDiff / p.entryPrice * notionalValue * p.leverage
    let closeCommission := p.quantity * exitPrice * cfg.commission
    let netPnL := grossPnL - closeCommission
    let trade : Trade :=
      { entryTime := p.entryTime
        exitTime := k.openTime
        side := p.side
        entryPrice := p.entryPrice
        exitPrice := exitPrice
        quantity := p.quantity
        leverage := p.leverage
        pnl := netPnL
        pnlPercent := netPnL / (notionalValue / p.leverage) * 100
        commission := closeCommission
        reason := reason }
    { st with
        currentCapital := st.currentCapital + netPnL
        trades := st.trades ++ [trade]
        currentPosition := none }

/-- Snapshot assembly of tryOpenPosition: indicators over the historical
window through getLatest, account block, performance block and
metadata. -/
def buildAIInput (cfg : EngineConfig) (st : EngineState) (historicalKlines : List Kline)
    (k : Kline) (index : ℕ) : AIDecisionInput :=
  let indicators := calculateAllIndicators (historicalKlines.map toIndKline)
  { symbol := cfg.symbol
    price := k.close
    indicators :=
      { rsi := getLatest indicators.rsi
        macd := getLatest indicators.macdLine
        macdSignal := getLatest indicators.macdSignal
        macdHistogram := getLatest indicators.macdHistogram
        ema20 := getLatest indicators.ema20
        ema50 := getLatest indicators.ema50
        ema200 := getLatest indicators.ema200
        bollingerUpper := getLatest indicators.bollingerUpper
        bollingerMiddle := getLatest indicators.bollingerMiddle
        bollingerLower := getLatest indicators.bollingerLower
        atr := getLatest indicators.atr }
    account :=
      { balance := st.currentCapital
        positions := match st.currentPosition with | some _ => 1 | none => 0
        totalValue := getCurrentEquity st k.close
        unrealizedPnL := getUnrealizedPnL st k.close }
    performance := getCurrentPerformance cfg st
    metadata := { timestamp := k.openTime, wakeupCount := index } }

/-- tryOpenPosition from the source: consult the oracle; below the
confidence floor do nothing; on BUY or SELL compute margin from the
positionSize percent of capital, notional as margin times leverage, the
slippage-adjusted entry price, quantity as notional over entry price, the
stop and take-profit levels from the percent parameters, deduct the open
commission from capital, and store the position.  The optional decision
fields default through the JavaScript or-operator. -/
def tryOpenPosition (cfg : EngineConfig) (oracle : Oracle) (st : EngineState)
    (historicalKlines : List Kline) (k : Kline) (index : ℕ) : EngineState :=
  let decision := oracle (buildAIInput cfg st historicalKlines k index)
  if decision.confidence < cfg.minConfidence then st
  else if decision.action = .BUY ∨ decision.action = .SELL then
    let side : Side := if decision.action = .BUY then .LONG else .SHORT
    let positionSize := jsOr decision.positionSize 20
    let leverage := jsOr decision.leverage 3
    let stopLoss := jsOr decision.stopLoss 2
    let takeProfit := jsOr decision.takeProfit 4
    let margin := st.currentCapital * positionSize / 100
    let notionalValue := margin * leverage
    let entryPrice :=
      match side with
      | .LONG => k.close * (1 + cfg.slippage)
      | .SHORT => k.close * (1 - cfg.slippage)
    let quantity := notionalValue / entryPrice
    let stopLossPrice :=
      match side with
      | .LONG => entryPrice * (1 - stopLoss / 100)
      | .SHORT => entryPrice * (1 + stopLoss / 100)
    let takeProfitPrice :=
      match side with
      | .LONG => entryPrice * (1 + takeProfit / 100)
      | .SHORT => entryPrice * (1 - takeProfit / 100)
    let openCommission := notionalValue * cfg.commission
    { st with
        currentCapital := st.currentCapital - openCommission
        currentPosition := some
          { side := side
            entryPrice := entryPrice
            entryTime := k.openTime
            quantity := quantity
            leverage := leverage
            stopLoss := stopLossPrice
            takeProfit := takeProfitPrice } }
  else st

/-- First phase of the bar loop body: when a position is open and the
stop or take-profit check fires, close it against the current bar. -/
def closeStep (cfg : EngineConfig) (klines : List Kline) (st : EngineState) (i : ℕ) :
    EngineState :=
  match st.currentPosition with
  | some _ =>
    match checkStopLossTakeProfit st.currentPosition (klines.getD i default) with
    | some reason => closePosition cfg st (klines.getD i default) reason
    | none => st
  | none => st

/-- Second phase of the bar loop body: when flat, consult the oracle over
the trailing 200-bar window and try to open. -/
def openStep (cfg : EngineConfig) (oracle : Oracle) (klines : List Kline)
    (st : EngineState) (i : ℕ) : EngineState :=
  if st.currentPosition = none then
    tryOpenPosition cfg oracle st ((klines.drop (i - 200)).take 200) (klines.getD i default) i
  else st

/-- Third phase of the bar loop body: append the equity point for the bar
and update the running maximum equity. -/
def equityStep (klines : List Kline) (st : EngineState) (i : ℕ) : EngineState :=
  let currentEquity := getCurrentEquity st (klines.getD i default).close
  { st with
      equityCurve := st.equityCurve ++
        [{ time := (klines.getD i default).openTime, equity := currentEquity }]
      maxEquity := if currentEquity > st.maxEquity then currentEquity else st.maxEquity }

/-- Body of the bar loop in run: close on a stop or take-profit trigger,
try to open when flat, then record equity. -/
def processBar (cfg : EngineConfig) (oracle : Oracle) (klines : List Kline)
    (st : EngineState) (i : ℕ) : EngineState :=
  equityStep klines (openStep cfg oracle klines (closeStep cfg klines st i) i) i

/-- Initial run state: capital and maximum equity at the initial capital,
the equity curve seeded with the first bar time. -/
def initState (cfg : EngineConfig) (k0 : Kline) : EngineState :=
  { currentCapital := cfg.initialCapital
    currentPosition := none
    trades := []
    equityCurve := [{ time := k0.openTime, equity := cfg.initialCapital }]
    maxEquity := cfg.initialCapital }

/-- Bar loop of run: indices 200 to length - 1 in order. -/
def runLoop (cfg : EngineConfig) (oracle : Oracle) (klines : List Kline)
    (st : EngineState) : EngineState :=
  (List.range' 200 (klines.length - 200)).foldl (processBar cfg oracle klines) st

/-- Error raised by run on an empty series: reading openTime of
klines[0], which is undefined, throws a TypeError. -/
inductive RunError where
  | typeErrorUndefined
deriving DecidableEq

/-- Final report record of the engine.  The wall-clock startTime, endTime
and duration fields are not modelled.  The source fields sharpeRatio and
sortinoRatio are rendered as sharpe and sortino. -/
structure BacktestResult where
  config : EngineConfig
  initialCapital : ℚ
  finalCapital : ℚ
  totalReturn : ℚ
  totalReturnPercent : ℚ
  totalTrades : ℕ
  wins : ℕ
  losses : ℕ
  winRate : ℚ
  averageWin : ℚ
  averageLoss : ℚ
  profitFactor : ℚ
  maxDrawdown : ℚ
  maxDrawdownPercent : ℚ
  sharpe : ℚ
  sortino : ℚ
  trades : List Trade
  equityCurve : List EquityPoint
  drawdownCurve : List DrawdownPoint
deriving DecidableEq

/-- Body of the drawdown fold in generateResult, carried over the equity
curve as (peak, maxDrawdown, drawdownCurve): raise the peak, take the
absolute drawdown against it, keep the running maximum, and append the
percent point against the current peak. -/
def ddStep (acc : ℚ × ℚ × List DrawdownPoint) (point : EquityPoint) :
    ℚ × ℚ × List DrawdownPoint :=
  let peak := if point.equity > acc.1 then point.equity else acc.1
  let drawdown := peak - point.equity
  let maxDrawdown := if drawdown > acc.2.1 then drawdown else acc.2.1
  (peak, maxDrawdown,
    acc.2.2 ++ [{ time := point.time, drawdown := drawdown / peak * 100 }])

/-- generateResult from the source: aggregate statistics of the final
state.  The drawdown fold starts from peak = initial capital and
maxDrawdown = 0, and the reported maxDrawdownPercent divides the maximum
absolute drawdown by the peak value the fold ends with. -/
def generateResult (cfg : EngineConfig) (st : EngineState) : BacktestResult :=
  let wins := st.trades.filter fun t => t.pnl > 0
  let losses := st.trades.filter fun t => t.pnl < 0
  let totalWin := (wins.map fun t => t.pnl).sum
  let totalLoss := |(losses.map fun t => t.pnl).sum|
  let totalReturn := st.currentCapital - cfg.initialCapital
  let dd := st.equityCurve.foldl ddStep (cfg.initialCapital, 0, [])
  let returns := st.trades.map fun t => t.pnlPercent
  let lenOr1 : ℚ := if returns.length = 0 then 1 else (returns.length : ℚ)
  let avgReturn := returns.sum / lenOr1
  let stdDev := Rat.sqrt (((returns.map fun r => (r - avgReturn) ^ 2).sum) / lenOr1)
  let sharpe := if stdDev > 0 then avgReturn / stdDev * Rat.sqrt 252 else 0
  let downReturns := returns.filter fun r => r < 0
  let dlenOr1 : ℚ := if downReturns.length = 0 then 1 else (downReturns.length : ℚ)
  let downStdDev := Rat.sqrt (((downReturns.map fun r => r ^ 2).sum) / dlenOr1)
  let sortino := if downStdDev > 0 then avgReturn / downStdDev * Rat.sqrt 252 else 0
  { config := cfg
    initialCapital := cfg.initialCapital
    finalCapital := st.currentCapital
    totalReturn := totalReturn
    totalReturnPercent := totalReturn / cfg.initialCapital * 100
    totalTrades := st.trades.length
    wins := wins.length
    losses := losses.length
    winRate := if st.trades.length > 0 then (wins.length : ℚ) / (st.trades.length : ℚ) * 100 else 0
    averageWin := if wins.length > 0 then totalWin / (wins.length : ℚ) else 0
    averageLoss := if losses.length > 0 then totalLoss / (losses.length : ℚ) else 0
    profitFactor := if totalLoss > 0 then totalWin / totalLoss else 0
    maxDrawdown := dd.2.1
    maxDrawdownPercent := dd.2.1 / dd.1 * 100
    sharpe := sharpe
    sortino := sortino
    trades := st.trades
    equityCurve := st.equityCurve
    drawdownCurve := dd.2.2 }

/-- run from the source: an empty series throws while seeding the equity
curve; otherwise the bar loop runs from index 200, a still-open position
is force-closed against the last bar with reason BACKTEST_END, and the
report is generated. -/
def run (cfg : EngineConfig) (oracle : Oracle) (klines : List Kline) :
    Except RunError BacktestResult :=
  match klines with
  | [] => .error .typeErrorUndefined
  | k0 :: rest =>
    let stLoop := runLoop cfg oracle (k0 :: rest) (initState cfg k0)
    let stFinal :=
      match stLoop.currentPosition with
      | some _ => closePosition cfg stLoop ((k0 :: rest).getLastD k0) .BACKTEST_END
      | none => stLoop
    .ok (generateResult cfg stFinal)

/-! ## Specification-side definitions used by the theorems. -/

/-- Warm-up contract of the specification for one indicator output:
same length as the input, the unavailable marker strictly before the
index start, numeric values from start onward. -/
def warmupContract (out : List (Option ℚ)) (n start : ℕ) : Prop :=
  out.length = n ∧ ∀ i, i < n → ((out.getD i none).isSome ↔ start ≤ i)

instance (out : List (Option ℚ)) (n start : ℕ) : Decidable (warmupContract out n start) := by
  unfold warmupContract
  exact inferInstance

/-- Trades of a run result, empty when the run failed. -/
def resultTrades (x : Except RunError BacktestResult) : List Trade :=
  match x with
  | .ok r => r.trades
  | .error _ => []

/-- Maximum value on the drawdown curve of a report (all drawdown-curve
values are at least the seed 0). -/
def drawdownCurveMax (r : BacktestResult) : ℚ :=
  ((r.drawdownCurve.map fun p => p.drawdown).foldl max 0)

/-- Running peak of the specification: the maximum of the initial capital
and the equity values up to index i. -/
def runningPeak (init : ℚ) (eqs : List ℚ) (i : ℕ) : ℚ :=
  (eqs.take (i + 1)).foldl max init

/-- Maximum absolute drawdown of the specification: the largest gap
between the running peak and the equity, over all curve indices. -/
def maxAbsDrawdown (init : ℚ) (eqs : List ℚ) : ℚ :=
  ((List.range eqs.length).map fun i => runningPeak init eqs i - eqs.getD i 0).foldl max 0

/-- Final running peak over the whole equity curve. -/
def finalPeak (init : ℚ) (eqs : List ℚ) : ℚ :=
  eqs.foldl max init

/-- Trade record created by closePosition for position p closed on bar k
with the given reason, as written in the source. -/
def mkCloseTrade (cfg : EngineConfig) (p : Position) (k : Kline) (reason : ExitReason) : Trade :=
  let exitPrice :=
    match reason with
    | .STOP_LOSS => p.stopLoss
    | .TAKE_PROFIT => p.takeProfit
    | .BACKTEST_END =>
      match p.side with
      | .LONG => k.close * (1 - cfg.slippage)
      | .SHORT => k.close * (1 + cfg.slippage)
  let notionalValue := p.quantity * p.entryPrice
  let priceDiff :=
    match p.side with
    | .LONG => exitPrice - p.entryPrice
    | .SHORT => p.entryPrice - exitPrice
  let grossPnL := priceDiff / p.entryPrice * notionalValue * p.leverage
  let closeCommission := p.quantity * exitPrice * cfg.commission
  let netPnL := grossPnL - closeCommission
  { entryTime := p.entryTime
    exitTime := k.openTime
    side := p.side
    entryPrice := p.entryPrice
    exitPrice := exitPrice
    quantity := p.quantity
    leverage := p.leverage
    pnl := netPnL
    pnlPercent := netPnL / (notionalValue / p.leverage) * 100
    commission := closeCommission
    reason := reason }

/-- Position record created by tryOpenPosition for capital, bar and
decision, as written in the source. -/
def mkOpenPosition (cfg : EngineConfig) (capital : ℚ) (k : Kline) (d : AIDecisionOutput) : Position :=
  let side : Side := if d.action = .BUY then .LONG else .SHORT
  let positionSize := jsOr d.positionSize 20
  let leverage := jsOr d.leverage 3
  let stopLoss := jsOr d.stopLoss 2
  let takeProfit := jsOr d.takeProfit 4
  let margin := capital * positionSize / 100
  let notionalValue := margin * leverage
  let entryPrice :=
    match side with
    | .LONG => k.close * (1 + cfg.slippage)
    | .SHORT => k.close * (1 - cfg.slippage)
  let quantity := notionalValue / entryPrice
  let stopLossPrice :=
    match side with
    | .LONG => entryPrice * (1 - stopLoss / 100)
    | .SHORT => entryPrice * (1 + stopLoss / 100)
  let takeProfitPrice :=
    match side with
    | .LONG => entryPrice * (1 + takeProfit / 100)
    | .SHORT => entryPrice * (1 - takeProfit / 100)
  { side := side
    entryPrice := entryPrice
    entryTime := k.openTime
    quantity := quantity
    leverage := leverage
    stopLoss := stopLossPrice
    takeProfit := takeProfitPrice }

/-- Acceptance condition of parseDecision: truthy action, defined
confidence, truthy reasoning. -/
def decisionJsonAccepted (d : DecisionJson) : Prop :=
  jsTruthyOpt d.action = true ∧ d.confidence ≠ none ∧ jsTruthyOpt d.reasoning = true

instance (d : DecisionJson) : Decidable (decisionJsonAccepted d) := by
  unfold decisionJsonAccepted
  exact inferInstance

/-! ## Concrete inputs for the counterexamples and witnesses. -/

/-- Sample effective configuration: 100 initial capital, 50 percent
confidence floor, the default 0.0004 commission and 0.0005 slippage. -/
def sampleConfig : EngineConfig :=
  { symbol := ("TEST"), initialCapital := 100, minConfidence := 50,
    commission := 4 / 10000, slippage := 5 / 10000 }

/-- Sample oracle decision: BUY at confidence 90, 20 percent position,
3x leverage, 2 percent stop, 4 percent take-profit. -/
def sampleBuyDecision : AIDecisionOutput :=
  { action := .BUY, confidence := 90, reasoning := (""),
    positionSize := some 20, leverage := some 3, stopLoss := some 2, takeProfit := some 4 }

/-- Oracle stub that always answers with sampleBuyDecision. -/
def constantBuyOracle : Oracle := fun _ => sampleBuyDecision

/-- Flat bar at price 100 with the given open time. -/
def flatBar (t : ℕ) : Kline :=
  { openTime := t, kopen := 100, high := 100, low := 100, close := 100, volume := 1 }

/-- Bar whose low breaches a 2 percent stop below an entry near 100. -/
def stopBar : Kline :=
  { openTime := 201, kopen := 100, high := 100, low := 98, close := 100, volume := 1 }

/-- Bar whose high breaches a 4 percent take-profit above an entry near
100. -/
def profitBar : Kline :=
  { openTime := 202, kopen := 100, high := 105, low := 99, close := 100, volume := 1 }

/-- A 100-bar series: shorter than the 200-bar warm-up window. -/
def shortSeries : List Kline :=
  flatBar 0 :: ((List.range 99).map fun i => flatBar (i + 1))

/-- A 201-bar series: the loop processes exactly the final bar, on which
the constant BUY oracle opens a position that is then force-closed
against that same bar. -/
def lastBarSeries : List Kline :=
  flatBar 0 :: ((List.range 200).map fun i => flatBar (i + 1))

/-- Tail of lastBarSeries. -/
def lastBarSeriesTail : List Kline := (List.range 200).map fun i => flatBar (i + 1)

/-- A 204-bar series: open at bar 200, stop out on bar 201, reopen and
take profit on bar 202, reopen on bar 202 close and force-close on bar
203; the early drawdown is the largest in percent but the final peak is
higher than where it occurred. -/
def drawdownSeries : List Kline :=
  flatBar 0 :: (((List.range 199).map fun i => flatBar (i + 1)) ++
    [flatBar 200, stopBar, profitBar, flatBar 203])

/-- Open long position used by the close-path witnesses: entry 100, stop
95, take-profit 105. -/
def openPositionSample : Position :=
  { side := .LONG, entryPrice := 100, entryTime := 0, quantity := 1, leverage := 3,
    stopLoss := 95, takeProfit := 105 }

/-- State holding openPositionSample. -/
def positionState : EngineState :=
  { currentCapital := 100, currentPosition := some openPositionSample, trades := [],
    equityCurve := [], maxEquity := 100 }

/-- Flat state with 100 capital. -/
def flatState : EngineState :=
  { currentCapital := 100, currentPosition := none, trades := [],
    equityCurve := [{ time := 0, equity := 100 }], maxEquity := 100 }

/-- Bar that breaches both the stop 95 and the take-profit 105 of
openPositionSample in the same bar. -/
def wideBar : Kline :=
  { openTime := 5, kopen := 100, high := 110, low := 90, close := 100, volume := 1 }

/-- Flat state with only 10 capital, below any sensible notional floor. -/
def lowCapitalState : EngineState :=
  { currentCapital := 10, currentPosition := none, trades := [],
    equityCurve := [], maxEquity := 10 }

/-- Oracle whose decision yields a 2-dollar notional on 10 capital:
20 percent position size at 1x leverage. -/
def lowNotionalOracle : Oracle := fun _ =>
  { action := .BUY, confidence := 90, reasoning := (""),
    positionSize := some 20, leverage := some 1, stopLoss := some 2, takeProfit := some 4 }

/-- Bar at price 1 used with the low-notional open. -/
def smallBar : Kline :=
  { openTime := 0, kopen := 1, high := 1, low := 1, close := 1, volume := 1 }

/-- Order produced by executeOrder for sampleBuyDecision on balance 100
at price 100. -/
def sampleOrder : OrderRequest :=
  { symbol := ("TEST"), side := .LONG, quantity := 3 / 5, leverage := 3,
    stopLossPrice := 98, takeProfitPrice := 104 }

/-- Position opened by the constant BUY oracle on the final bar of
lastBarSeries with 100 capital. -/
def lastBarOpenPosition : Position :=
  mkOpenPosition sampleConfig 100 (flatBar 200) sampleBuyDecision

/-- Decision JSON with a present but non-numeric confidence (a nested
object): action BUY, reasoning a non-empty string. -/
def cexDecisionJson : DecisionJson :=
  { action := some (.jstr ("BUY")), confidence := some .jobj,
    reasoning := some (.jstr ("ok")), positionSize := none, leverage := none,
    stopLoss := none, takeProfit := none }

/-- Ordering hypothesis on the bar series: open times never decrease, as
the data model orders bars by time. -/
def timesMono (klines : List Kline) : Prop :=
  klines.Pairwise fun a b => a.openTime ≤ b.openTime

instance (klines : List Kline) : Decidable (timesMono klines) := by
  unfold timesMono
  exact inferInstance

/-- Trade-time invariant: every recorded trade leaves no earlier than it
entered. -/
def tradesOK (st : EngineState) : Prop :=
  ∀ t ∈ st.trades, t.entryTime ≤ t.exitTime

/-- Position-time invariant: an open position entered on some bar with
index below the bound. -/
def posOK (klines : List Kline) (bound : ℕ) (st : EngineState) : Prop :=
  ∀ p, st.currentPosition = some p →
    ∃ j, j < klines.length ∧ j < bound ∧ p.entryTime = (klines.getD j default).openTime

/-- Decision JSON with a falsy action, for the C9 witness. -/
def fallbackDecisionJson : DecisionJson :=
  { action := none, confidence := some (.jnum 50), reasoning := some (.jstr ("r")),
    positionSize := none, leverage := none, stopLoss := none, takeProfit := none }

/-- Decision JSON with an out-of-range numeric confidence and absent
optional fields, for the C9 witness. -/
def clampDecisionJson : DecisionJson :=
  { action := some (.jstr ("BUY")), confidence := some (.jnum 150),
    reasoning := some (.jstr ("r")), positionSize := none, leverage := none,
    stopLoss := none, takeProfit := none }

/-- Decision JSON whose confidence is a non-numeric string, for the C9
witness. -/
def nanDecisionJson : DecisionJson :=
  { action := some (.jstr ("SELL")), confidence := some (.jstr ("high")),
    reasoning := some (.jstr ("r")), positionSize := none, leverage := none,
    stopLoss := none, takeProfit := none }

/-! ## Helper lemmas. -/

theorem getD_range_map {α : Type} (f : ℕ → α) (n i : ℕ) (h : i < n) (d : α) :
    ((List.range n).map f).getD i d = f i := by
  rw [List.getD_eq_getElem?_getD]
  rw [List.getElem?_map]
  rw [List.getElem?_range h]
  rfl

theorem emaLoop_length (m : ℚ) (p : ℕ) :
    ∀ (xs : List ℚ) (i : ℕ) (e : ℚ), (emaLoop m p xs i e).length = xs.length := by
  intro xs
  induction xs with
  | nil => intro i e; rfl
  | cons x rest ih =>
    intro i e
    unfold emaLoop
    split
    · simpa using ih (i + 1) e
    · split
      · simpa using ih (i + 1) e
      · simpa using ih (i + 1) _

theorem emaLoop_getD_isSome (m : ℚ) (p : ℕ) :
    ∀ (xs : List ℚ) (i0 : ℕ) (e : ℚ) (j : ℕ), j < xs.length →
      (((emaLoop m p xs i0 e).getD j none).isSome ↔ p - 1 ≤ i0 + j) := by
  intro xs
  induction xs with
  | nil => intro i0 e j hj; simp at hj
  | cons x rest ih =>
    intro i0 e j hj
    unfold emaLoop
    match j with
    | 0 =>
      simp only [List.getD_cons_zero]
      split
      · simp
        omega
      · split <;> · simp; omega
    | j' + 1 =>
      have hj' : j' < rest.length := by simpa using hj
      have step : ∀ (e' : ℚ),
          (((emaLoop m p rest (i0 + 1) e').getD j' none).isSome ↔ p - 1 ≤ i0 + (j' + 1)) := by
        intro e'
        rw [ih (i0 + 1) e' j' hj']
        omega
      split
      · simpa only [List.getD_cons_succ] using step e
      · split
        · simpa only [List.getD_cons_succ] using step e
        · simpa only [List.getD_cons_succ] using step _

theorem calculateSMA_contract (data : List ℚ) (period : ℕ) :
    warmupContract (calculateSMA data period) data.length (period - 1) := by
  constructor
  · simp [calculateSMA]
  · intro i hi
    unfold calculateSMA
    rw [getD_range_map _ _ _ hi]
    split
    · simp
      omega
    · simp
      omega

theorem calculateEMA_contract (data : List ℚ) (period : ℕ) :
    warmupContract (calculateEMA data period) data.length (period - 1) := by
  constructor
  · simpa [calculateEMA] using emaLoop_length _ period data 0 _
  · intro i hi
    unfold calculateEMA
    rw [emaLoop_getD_isSome _ period data 0 _ i (by simpa using hi)]
    omega

theorem isSome_ite_some {c : Prop} [inst : Decidable c] (a b : ℚ) :
    (if c then some a else some b).isSome = true := by
  split <;> rfl

theorem calculateRSI_contract (data : List ℚ) (period : ℕ) :
    warmupContract (calculateRSI data period) data.length period := by
  constructor
  · simp [calculateRSI]
  · intro i hi
    unfold calculateRSI
    rw [getD_range_map _ _ _ hi]
    rcases Nat.lt_or_ge i period with h | h
    · rw [if_pos h]
      simp
      omega
    · rw [if_neg (by omega)]
      simp only [isSome_ite_some]
      simp [h]

theorem calculateBollingerBands_middle_contract (data : List ℚ) (period : ℕ) (s : ℚ) :
    warmupContract (calculateBollingerBands data period s).2.1 data.length (period - 1) :=
  calculateSMA_contract data period

theorem bollinger_pair_isSome (data : List ℚ) (period : ℕ) (s : ℚ) (i : ℕ)
    (hi : i < data.length) :
    (let middle := calculateSMA data period
     let g := fun i =>
       match middle.getD i none with
       | none => ((none : Option ℚ), (none : Option ℚ))
       | some mean =>
         let slice := ((data.drop (i + 1 - period)).take period)
         let variance := ((slice.map fun v => (v - mean) ^ 2).sum) / (period : ℚ)
         let std := Rat.sqrt variance
         (some (mean + s * std), some (mean - s * std))
     ((g i).1.isSome ↔ period - 1 ≤ i) ∧ ((g i).2.isSome ↔ period - 1 ≤ i)) := by
  have hmid := (calculateSMA_contract data period).2 i hi
  dsimp only
  rcases h : (calculateSMA data period).getD i none with _ | mean
  · rw [h] at hmid
    simp at hmid
    constructor <;> simp <;> omega
  · rw [h] at hmid
    simp at hmid
    constructor <;> simp <;> omega

theorem calculateBollingerBands_upper_contract (data : List ℚ) (period : ℕ) (s : ℚ) :
    warmupContract (calculateBollingerBands data period s).1 data.length (period - 1) := by
  constructor
  · simp [calculateBollingerBands]
  · intro i hi
    unfold calculateBollingerBands
    dsimp only
    rw [List.map_map]
    rw [getD_range_map _ _ _ hi]
    exact (bollinger_pair_isSome data period s i hi).1

theorem calculateBollingerBands_lower_contract (data : List ℚ) (period : ℕ) (s : ℚ) :
    warmupContract (calculateBollingerBands data period s).2.2 data.length (period - 1) := by
  constructor
  · simp [calculateBollingerBands]
  · intro i hi
    unfold calculateBollingerBands
    dsimp only
    rw [List.map_map]
    rw [getD_range_map _ _ _ hi]
    exact (bollinger_pair_isSome data period s i hi).2

theorem run_cons (cfg : EngineConfig) (oracle : Oracle) (k0 : Kline) (rest : List Kline) :
    run cfg oracle (k0 :: rest) =
      .ok (generateResult cfg
        (match (runLoop cfg oracle (k0 :: rest) (initState cfg k0)).currentPosition with
         | some _ => closePosition cfg (runLoop cfg oracle (k0 :: rest) (initState cfg k0))
             ((k0 :: rest).getLastD k0) .BACKTEST_END
         | none => runLoop cfg oracle (k0 :: rest) (initState cfg k0))) := rfl

theorem getLatest_cons (x : Option ℚ) (xs : List (Option ℚ)) :
    getLatest (x :: xs) = (getLatest xs).or x := by
  show (match getLatest xs with | some v => some v | none => x) = (getLatest xs).or x
  cases getLatest xs <;> rfl

theorem getLatest_spec (l : List (Option ℚ)) :
    getLatest l = (l.filterMap id).getLast? := by
  induction l with
  | nil => rfl
  | cons x xs ih =>
    rw [getLatest_cons, ih]
    rcases x with _ | a
    · simp [List.filterMap_cons]
    · simp only [List.filterMap_cons, id]
      rcases heq : xs.filterMap id with _ | ⟨y, ys⟩
      · rfl
      · rw [List.getLast?_cons_cons]
        rcases hlast : (y :: ys).getLast? with _ | w
        · exact absurd hlast (by simp [List.getLast?_eq_none_iff])
        · rfl

theorem closePosition_eq (cfg : EngineConfig) (st : EngineState) (k : Kline)
    (reason : ExitReason) (p : Position) (h : st.currentPosition = some p) :
    closePosition cfg st k reason =
      { st with
          currentCapital := st.currentCapital + (mkCloseTrade cfg p k reason).pnl
          trades := st.trades ++ [mkCloseTrade cfg p k reason]
          currentPosition := none } := by
  unfold closePosition mkCloseTrade
  rw [h]

theorem closePosition_flat (cfg : EngineConfig) (st : EngineState) (k : Kline)
    (reason : ExitReason) (h : st.currentPosition = none) :
    closePosition cfg st k reason = st := by
  unfold closePosition
  rw [h]

theorem tryOpenPosition_opens (cfg : EngineConfig) (oracle : Oracle) (st : EngineState)
    (hist : List Kline) (k : Kline) (idx : ℕ)
    (hconf : ¬ (oracle (buildAIInput cfg st hist k idx)).confidence < cfg.minConfidence)
    (hact : (oracle (buildAIInput cfg st hist k idx)).action = .BUY ∨
      (oracle (buildAIInput cfg st hist k idx)).action = .SELL) :
    tryOpenPosition cfg oracle st hist k idx =
      { st with
          currentCapital := st.currentCapital -
            st.currentCapital * jsOr (oracle (buildAIInput cfg st hist k idx)).positionSize 20 / 100 *
              jsOr (oracle (buildAIInput cfg st hist k idx)).leverage 3 * cfg.commission
          currentPosition :=
            some (mkOpenPosition cfg st.currentCapital k (oracle (buildAIInput cfg st hist k idx))) } := by
  unfold tryOpenPosition mkOpenPosition
  rw [if_neg hconf, if_pos hact]

theorem tryOpenPosition_trades (cfg : EngineConfig) (oracle : Oracle) (st : EngineState)
    (hist : List Kline) (k : Kline) (idx : ℕ) :
    (tryOpenPosition cfg oracle st hist k idx).trades = st.trades := by
  simp only [tryOpenPosition]
  split
  · rfl
  · split <;> rfl

theorem tryOpenPosition_position (cfg : EngineConfig) (oracle : Oracle) (st : EngineState)
    (hist : List Kline) (k : Kline) (idx : ℕ) :
    (tryOpenPosition cfg oracle st hist k idx).currentPosition = st.currentPosition ∨
      (tryOpenPosition cfg oracle st hist k idx).currentPosition =
        some (mkOpenPosition cfg st.currentCapital k (oracle (buildAIInput cfg st hist k idx))) := by
  simp only [tryOpenPosition, mkOpenPosition]
  split
  · left; rfl
  · split
    · right; rfl
    · left; rfl

theorem equityStep_trades (klines : List Kline) (st : EngineState) (i : ℕ) :
    (equityStep klines st i).trades = st.trades := rfl

theorem equityStep_position (klines : List Kline) (st : EngineState) (i : ℕ) :
    (equityStep klines st i).currentPosition = st.currentPosition := rfl

theorem openStep_trades (cfg : EngineConfig) (oracle : Oracle) (klines : List Kline)
    (st : EngineState) (i : ℕ) :
    (openStep cfg oracle klines st i).trades = st.trades := by
  unfold openStep
  split
  · exact tryOpenPosition_trades cfg oracle st _ _ i
  · rfl

theorem closeStep_close (cfg : EngineConfig) (klines : List Kline) (st : EngineState)
    (i : ℕ) (p : Position) (r : ExitReason) (hp : st.currentPosition = some p)
    (hc : checkStopLossTakeProfit st.currentPosition (klines.getD i default) = some r) :
    closeStep cfg klines st i = closePosition cfg st (klines.getD i default) r := by
  unfold closeStep
  rw [hp] at hc ⊢
  dsimp only
  rw [hc]

/-- Claim C1: on a bar where both the stop-loss and the take-profit
conditions hold (low at or under the stop and high at or over the
take-profit for a long, mirrored for a short), the stop check fires
first, and the bar-processing step closes the open position with exit
reason STOP_LOSS, never TAKE_PROFIT. -/
theorem claim_C1 (cfg : EngineConfig) (oracle : Oracle) (klines : List Kline)
    (st : EngineState) (i : ℕ) (p : Position)
    (hpos : st.currentPosition = some p)
    (hboth : match p.side with
      | .LONG => (klines.getD i default).low ≤ p.stopLoss ∧
          p.takeProfit ≤ (klines.getD i default).high
      | .SHORT => p.stopLoss ≤ (klines.getD i default).high ∧
          (klines.getD i default).low ≤ p.takeProfit) :
    checkStopLossTakeProfit st.currentPosition (klines.getD i default) =
      some .STOP_LOSS ∧
    ∃ t, (processBar cfg oracle klines st i).trades = st.trades ++ [t] ∧
      t.reason = .STOP_LOSS := by
  have hcheck : checkStopLossTakeProfit st.currentPosition (klines.getD i default) =
      some .STOP_LOSS := by
    unfold checkStopLossTakeProfit
    rw [hpos]
    dsimp only
    rcases hside : p.side with _ | _
    · rw [hside] at hboth
      dsimp only at hboth ⊢
      rw [if_pos hboth.1]
    · rw [hside] at hboth
      dsimp only at hboth ⊢
      rw [if_pos hboth.1]
  refine ⟨hcheck, mkCloseTrade cfg p (klines.getD i default) .STOP_LOSS, ?_, rfl⟩
  show (equityStep klines (openStep cfg oracle klines (closeStep cfg klines st i) i) i).trades = _
  rw [equityStep_trades, openStep_trades]
  rw [closeStep_close cfg klines st i p .STOP_LOSS hpos hcheck]
  rw [closePosition_eq cfg st _ .STOP_LOSS p hpos]

/-- Claim C2: a closed trade records an exit commission of quantity times
exit price times the commission rate, and a pnl equal to the side-aware
fractional price move times the notional value at entry (quantity times
entry price) times leverage, minus that exit commission; and opening a
position immediately deducts an entry commission of entry notional times
the same rate from capital. -/
theorem claim_C2 :
    (∀ (cfg : EngineConfig) (st : EngineState) (k : Kline) (reason : ExitReason)
        (p : Position), st.currentPosition = some p →
      ∃ t, (closePosition cfg st k reason).trades = st.trades ++ [t] ∧
        t.commission = p.quantity * t.exitPrice * cfg.commission ∧
        t.pnl = (match p.side with
            | .LONG => (t.exitPrice - p.entryPrice) / p.entryPrice
            | .SHORT => (p.entryPrice - t.exitPrice) / p.entryPrice) *
          (p.quantity * p.entryPrice) * p.leverage - t.commission) ∧
    (∀ (cfg : EngineConfig) (oracle : Oracle) (st : EngineState) (hist : List Kline)
        (k : Kline) (idx : ℕ),
      0 < k.close → 0 ≤ cfg.slippage → cfg.slippage < 1 →
      ¬ (oracle (buildAIInput cfg st hist k idx)).confidence < cfg.minConfidence →
      ((oracle (buildAIInput cfg st hist k idx)).action = .BUY ∨
        (oracle (buildAIInput cfg st hist k idx)).action = .SELL) →
      ∃ q, (tryOpenPosition cfg oracle st hist k idx).currentPosition = some q ∧
        (tryOpenPosition cfg oracle st hist k idx).currentCapital =
          st.currentCapital - q.quantity * q.entryPrice * cfg.commission) := by
  constructor
  · intro cfg st k reason p h
    refine ⟨mkCloseTrade cfg p k reason, ?_, ?_, ?_⟩
    · rw [closePosition_eq cfg st k reason p h]
    · rfl
    · unfold mkCloseTrade
      rcases p.side <;> rfl
  · intro cfg oracle st hist k idx hclose hs0 hs1 hconf hact
    refine ⟨mkOpenPosition cfg st.currentCapital k (oracle (buildAIInput cfg st hist k idx)), ?_, ?_⟩
    · rw [tryOpenPosition_opens cfg oracle st hist k idx hconf hact]
    · rw [tryOpenPosition_opens cfg oracle st hist k idx hconf hact]
      unfold mkOpenPosition
      dsimp only
      have hentry : ∀ s : Side,
          (match s with
            | Side.LONG => k.close * (1 + cfg.slippage)
            | Side.SHORT => k.close * (1 - cfg.slippage)) ≠ 0 := by
        intro s
        rcases s
        · dsimp only
          have : 0 < k.close * (1 + cfg.slippage) := by positivity
          exact ne_of_gt this
        · dsimp only
          have h1 : 0 < 1 - cfg.slippage := by linarith
          have : 0 < k.close * (1 - cfg.slippage) := by positivity
          exact ne_of_gt this
      rw [div_mul_cancel₀ _ (hentry _)]

/-- Claim C3: a trade closed with reason STOP_LOSS or TAKE_PROFIT exits
exactly at the stored trigger level with no slippage; a close with reason
BACKTEST_END (the forced end-of-series close, FORCED_CLOSE in the
specification) exits at the bar close adjusted adversely by the
configured slippage fraction, as at entry; and the end-of-series close in
run records reason BACKTEST_END at the final bar close so adjusted. -/
theorem claim_C3 :
    (∀ (cfg : EngineConfig) (st : EngineState) (k : Kline) (p : Position),
      st.currentPosition = some p →
      (∃ t, (closePosition cfg st k .STOP_LOSS).trades = st.trades ++ [t] ∧
        t.reason = .STOP_LOSS ∧ t.exitPrice = p.stopLoss) ∧
      (∃ t, (closePosition cfg st k .TAKE_PROFIT).trades = st.trades ++ [t] ∧
        t.reason = .TAKE_PROFIT ∧ t.exitPrice = p.takeProfit) ∧
      (∃ t, (closePosition cfg st k .BACKTEST_END).trades = st.trades ++ [t] ∧
        t.reason = .BACKTEST_END ∧
        t.exitPrice = (match p.side with
          | .LONG => k.close * (1 - cfg.slippage)
          | .SHORT => k.close * (1 + cfg.slippage)))) ∧
    (∀ (cfg : EngineConfig) (oracle : Oracle) (k0 : Kline) (rest : List Kline) (p : Position),
      (runLoop cfg oracle (k0 :: rest) (initState cfg k0)).currentPosition = some p →
      ∃ t r, run cfg oracle (k0 :: rest) = .ok r ∧
        r.trades = (runLoop cfg oracle (k0 :: rest) (initState cfg k0)).trades ++ [t] ∧
        t.reason = .BACKTEST_END ∧
        t.exitTime = ((k0 :: rest).getLastD k0).openTime ∧
        t.exitPrice = (match t.side with
          | .LONG => ((k0 :: rest).getLastD k0).close * (1 - cfg.slippage)
          | .SHORT => ((k0 :: rest).getLastD k0).close * (1 + cfg.slippage))) := by
  constructor
  · intro cfg st k p h
    refine ⟨⟨mkCloseTrade cfg p k .STOP_LOSS, ?_, rfl, rfl⟩,
      ⟨mkCloseTrade cfg p k .TAKE_PROFIT, ?_, rfl, rfl⟩,
      ⟨mkCloseTrade cfg p k .BACKTEST_END, ?_, rfl, rfl⟩⟩ <;>
      rw [closePosition_eq cfg st k _ p h]
  · intro cfg oracle k0 rest p h
    refine ⟨mkCloseTrade cfg p ((k0 :: rest).getLastD k0) .BACKTEST_END,
      generateResult cfg (closePosition cfg (runLoop cfg oracle (k0 :: rest) (initState cfg k0))
        ((k0 :: rest).getLastD k0) .BACKTEST_END), ?_, ?_, rfl, rfl, ?_⟩
    · rw [run_cons, h]
    · show (generateResult _ _).trades = _
      rw [closePosition_eq cfg _ _ .BACKTEST_END p h]
      rfl
    · show (mkCloseTrade cfg p _ .BACKTEST_END).exitPrice = _
      unfold mkCloseTrade
      rcases p.side <;> rfl

/-- Claim C10: getLatest returns the value of the last element of the
series that is not NaN, and null (none) when the series is empty or all
NaN — equivalently, the last element of the non-NaN compaction; and every
indicator field of the oracle snapshot assembled by tryOpenPosition is
exactly such a getLatest value, a number or null, never the NaN warm-up
marker. -/
theorem claim_C10 :
    (∀ l : List (Option ℚ), getLatest l = (l.filterMap id).getLast?) ∧
    (∀ (cfg : EngineConfig) (st : EngineState) (hist : List Kline) (k : Kline) (idx : ℕ),
      (buildAIInput cfg st hist k idx).indicators =
        { rsi := getLatest (calculateAllIndicators (hist.map toIndKline)).rsi
          macd := getLatest (calculateAllIndicators (hist.map toIndKline)).macdLine
          macdSignal := getLatest (calculateAllIndicators (hist.map toIndKline)).macdSignal
          macdHistogram := getLatest (calculateAllIndicators (hist.map toIndKline)).macdHistogram
          ema20 := getLatest (calculateAllIndicators (hist.map toIndKline)).ema20
          ema50 := getLatest (calculateAllIndicators (hist.map toIndKline)).ema50
          ema200 := getLatest (calculateAllIndicators (hist.map toIndKline)).ema200
          bollingerUpper := getLatest (calculateAllIndicators (hist.map toIndKline)).bollingerUpper
          bollingerMiddle := getLatest (calculateAllIndicators (hist.map toIndKline)).bollingerMiddle
          bollingerLower := getLatest (calculateAllIndicators (hist.map toIndKline)).bollingerLower
          atr := getLatest (calculateAllIndicators (hist.map toIndKline)).atr }) :=
  ⟨getLatest_spec, fun _ _ _ _ _ => rfl⟩

/-- Claim C5 (amended): an empty bar series makes run fail immediately
(the TypeError thrown reading the first bar, before any simulation work);
but a non-empty series shorter than the warm-up window does not fail: the
bar loop never executes and run completes, returning a report with no
trades, the initial capital and only the seed equity point. -/
theorem claim_C5 :
    (∀ (cfg : EngineConfig) (oracle : Oracle),
      run cfg oracle [] = .error .typeErrorUndefined) ∧
    (∀ (cfg : EngineConfig) (oracle : Oracle) (k0 : Kline) (rest : List Kline),
      (k0 :: rest).length ≤ 200 →
      ∃ r, run cfg oracle (k0 :: rest) = .ok r ∧ r.trades = [] ∧
        r.finalCapital = cfg.initialCapital ∧
        r.equityCurve = [{ time := k0.openTime, equity := cfg.initialCapital }] ∧
        r.totalTrades = 0) := by
  constructor
  · intro cfg oracle
    rfl
  · intro cfg oracle k0 rest hlen
    have hloop : runLoop cfg oracle (k0 :: rest) (initState cfg k0) = initState cfg k0 := by
      unfold runLoop
      have hz : (k0 :: rest).length - 200 = 0 := by
        simp only [List.length_cons] at hlen ⊢
        omega
      rw [hz]
      rfl
    refine ⟨generateResult cfg (initState cfg k0), ?_, rfl, rfl, rfl, rfl⟩
    rw [run_cons, hloop]
    rfl

/-- Claim C6 (amended): the live executeOrder path only submits an order
when the notional value (balance times positionSize percent times
leverage) is at least the 20-dollar floor, rejecting it otherwise; the
backtest engine has no such check: a BUY or SELL decision at or above the
confidence floor always opens a position, whatever the notional value. -/
theorem claim_C6 :
    (∀ (symbol : String) (d : AIDecisionOutput) (balance currentPrice : ℚ) (o : OrderRequest),
      executeOrder symbol d balance currentPrice = .ok o →
      20 ≤ balance * (d.positionSize.getD 20) / 100 * (d.leverage.getD 3)) ∧
    (∀ (cfg : EngineConfig) (oracle : Oracle) (st : EngineState) (hist : List Kline)
        (k : Kline) (idx : ℕ),
      ¬ (oracle (buildAIInput cfg st hist k idx)).confidence < cfg.minConfidence →
      ((oracle (buildAIInput cfg st hist k idx)).action = .BUY ∨
        (oracle (buildAIInput cfg st hist k idx)).action = .SELL) →
      (tryOpenPosition cfg oracle st hist k idx).currentPosition =
        some (mkOpenPosition cfg st.currentCapital k
          (oracle (buildAIInput cfg st hist k idx)))) := by
  constructor
  · intro symbol d balance currentPrice o h
    simp only [executeOrder] at h
    rcases hv : validateRiskParams balance (d.positionSize.getD 20) (d.leverage.getD 3) with e | u
    · rw [hv] at h
      cases h
    · rw [hv] at h
      dsimp only at h
      by_cases hn : balance * (d.positionSize.getD 20) / 100 * (d.leverage.getD 3) < 20
      · rw [if_pos hn] at h
        cases h
      · linarith [not_lt.mp hn]
  · intro cfg oracle st hist k idx hconf hact
    rw [tryOpenPosition_opens cfg oracle st hist k idx hconf hact]

theorem parseDecision_accepted (d : DecisionJson) (h : decisionJsonAccepted d) :
    parseDecision (some d) =
      { action := d.action.getD .jnull
        confidence := jsMax (.num 0) (jsMin (.num 100) (toNumber (d.confidence.getD .jnull)))
        reasoning := d.reasoning.getD .jnull
        positionSize := clampField d.positionSize 20 1 100
        leverage := clampField d.leverage 3 1 30
        stopLoss := clampField d.stopLoss 2 (1 / 2) 10
        takeProfit := clampField d.takeProfit 4 1 20 } := by
  unfold parseDecision
  dsimp only
  rw [if_neg]
  intro hc
  rcases hc with h1 | h2 | h3
  · rw [h.1] at h1
    exact h1 (by decide)
  · exact h.2.1 h2
  · rw [h.2.2] at h3
    exact h3 (by decide)

theorem clampField_range (o : Option JsonValue) (dflt lo hi : ℚ)
    (hlh : lo ≤ hi)
    (hnum : o = none ∨ ∃ q : ℚ, o = some (.jnum q)) :
    ∃ v : ℚ, clampField o dflt lo hi = .num v ∧ lo ≤ v ∧ v ≤ hi := by
  rcases hnum with hn | ⟨q, hq⟩
  · exact ⟨max lo (min hi dflt), by rw [hn]; rfl, le_max_left _ _,
      max_le hlh (min_le_left _ _)⟩
  · by_cases hz : q = 0
    · refine ⟨max lo (min hi dflt), ?_, le_max_left _ _, max_le hlh (min_le_left _ _)⟩
      rw [hq, hz]
      rfl
    · refine ⟨max lo (min hi q), ?_, le_max_left _ _, max_le hlh (min_le_left _ _)⟩
      rw [hq]
      unfold clampField
      have ht : jsTruthyOpt (some (JsonValue.jnum q)) = true := by
        simp [jsTruthyOpt, jsTruthy, hz]
      rw [ht]
      rfl

/-- Claim C9 (amended): a missing JSON block, a falsy action, an
undefined confidence or a falsy reasoning degrades to the fallback HOLD
decision with confidence 0; numeric confidence is clamped to 0 to 100 and
numeric or absent positionSize and leverage are clamped to 1 to 100 and
1 to 30; but a present non-numeric confidence is not treated as a parse
failure: it passes validation and becomes NaN while the action is copied
through unchanged. -/
theorem claim_C9 :
    (parseDecision none = parseFallback ∧ parseFallback.action = .jstr ("HOLD") ∧
      parseFallback.confidence = .num 0) ∧
    (∀ d : DecisionJson,
      (jsTruthyOpt d.action = false ∨ d.confidence = none ∨ jsTruthyOpt d.reasoning = false) →
      parseDecision (some d) = parseFallback) ∧
    (∀ (d : DecisionJson) (q : ℚ), decisionJsonAccepted d → d.confidence = some (.jnum q) →
      (parseDecision (some d)).confidence = .num (max 0 (min 100 q)) ∧
      0 ≤ max 0 (min 100 q) ∧ max 0 (min 100 q) ≤ 100) ∧
    (∀ d : DecisionJson, decisionJsonAccepted d →
      (d.positionSize = none ∨ ∃ q : ℚ, d.positionSize = some (.jnum q)) →
      ∃ v : ℚ, (parseDecision (some d)).positionSize = .num v ∧ 1 ≤ v ∧ v ≤ 100) ∧
    (∀ d : DecisionJson, decisionJsonAccepted d →
      (d.leverage = none ∨ ∃ q : ℚ, d.leverage = some (.jnum q)) →
      ∃ v : ℚ, (parseDecision (some d)).leverage = .num v ∧ 1 ≤ v ∧ v ≤ 30) ∧
    (∀ d : DecisionJson, decisionJsonAccepted d →
      toNumber (d.confidence.getD .jnull) = .nan →
      (parseDecision (some d)).action = d.action.getD .jnull ∧
      (parseDecision (some d)).confidence = .nan) := by
  refine ⟨⟨rfl, rfl, rfl⟩, ?_, ?_, ?_, ?_, ?_⟩
  · intro d hc
    unfold parseDecision
    dsimp only
    rw [if_pos]
    rcases hc with h1 | h2 | h3
    · left
      rw [h1]
      decide
    · right; left
      exact h2
    · right; right
      rw [h3]
      decide
  · intro d q hacc hq
    rw [parseDecision_accepted d hacc]
    refine ⟨?_, le_max_left _ _, max_le (by norm_num) (min_le_left _ _)⟩
    rw [hq]
    dsimp only [Option.getD]
    norm_num [toNumber, jsMin, jsMax]
  · intro d hacc hnum
    rw [parseDecision_accepted d hacc]
    exact clampField_range d.positionSize 20 1 100 (by norm_num) hnum
  · intro d hacc hnum
    rw [parseDecision_accepted d hacc]
    exact clampField_range d.leverage 3 1 30 (by norm_num) hnum
  · intro d hacc hnan
    rw [parseDecision_accepted d hacc]
    refine ⟨rfl, ?_⟩
    dsimp only
    rw [hnan]
    rfl

theorem ite_gt_eq_max (a b : ℚ) : (if b > a then b else a) = max a b := by
  split
  · exact (max_eq_right (le_of_lt (by assumption))).symm
  · exact (max_eq_left (not_lt.mp (by assumption))).symm

theorem ddStep_eq (p0 m0 : ℚ) (c0 : List DrawdownPoint) (e : EquityPoint) :
    ddStep (p0, m0, c0) e =
      (max p0 e.equity, max m0 (max p0 e.equity - e.equity),
        c0 ++ [{ time := e.time,
                 drawdown := (max p0 e.equity - e.equity) / max p0 e.equity * 100 }]) := by
  simp only [ddStep]
  rw [ite_gt_eq_max, ite_gt_eq_max]

theorem runningPeak_zero_cons (p0 x : ℚ) (l : List ℚ) :
    runningPeak p0 (x :: l) 0 = max p0 x := by
  simp [runningPeak]

theorem runningPeak_succ_cons (p0 x : ℚ) (l : List ℚ) (i : ℕ) :
    runningPeak p0 (x :: l) (i + 1) = runningPeak (max p0 x) l i := by
  simp [runningPeak]

/-- First component of the drawdown fold: the final running peak. -/
theorem ddFold_fst (pts : List EquityPoint) : ∀ (p0 m0 : ℚ) (c0 : List DrawdownPoint),
    (pts.foldl ddStep (p0, m0, c0)).1 = (pts.map fun e => e.equity).foldl max p0 := by
  induction pts with
  | nil => intro p0 m0 c0; rfl
  | cons e es ih =>
    intro p0 m0 c0
    rw [List.foldl_cons, ddStep_eq, ih, List.map_cons, List.foldl_cons]

/-- Second component of the drawdown fold: the maximum absolute drawdown,
expressed through the index-based running peak. -/
theorem ddFold_snd (pts : List EquityPoint) : ∀ (p0 m0 : ℚ) (c0 : List DrawdownPoint),
    (pts.foldl ddStep (p0, m0, c0)).2.1 =
      ((List.range pts.length).map fun i =>
        runningPeak p0 (pts.map fun e => e.equity) i -
          (pts.map fun e => e.equity).getD i 0).foldl max m0 := by
  induction pts with
  | nil => intro p0 m0 c0; rfl
  | cons e es ih =>
    intro p0 m0 c0
    rw [List.foldl_cons, ddStep_eq, ih]
    rw [List.length_cons, List.range_succ_eq_map, List.map_cons, List.foldl_cons,
      List.map_map]
    have hfun : ((fun i => runningPeak p0 ((e :: es).map fun x => x.equity) i -
          ((e :: es).map fun x => x.equity).getD i 0) ∘ Nat.succ) =
        (fun i => runningPeak (max p0 e.equity) (es.map fun x => x.equity) i -
          (es.map fun x => x.equity).getD i 0) := by
      funext i
      simp only [Function.comp]
      rw [List.map_cons, runningPeak_succ_cons, List.getD_cons_succ]
    rw [hfun]
    rw [List.map_cons, runningPeak_zero_cons, List.getD_cons_zero]

/-- Third component of the drawdown fold: the drawdown curve, pointwise
the running-peak-relative percent drawdown. -/
theorem ddFold_thd (pts : List EquityPoint) : ∀ (p0 m0 : ℚ) (c0 : List DrawdownPoint),
    (pts.foldl ddStep (p0, m0, c0)).2.2 =
      c0 ++ (List.range pts.length).map fun i =>
        { time := (pts.getD i default).time,
          drawdown := (runningPeak p0 (pts.map fun e => e.equity) i -
              (pts.map fun e => e.equity).getD i 0) /
            runningPeak p0 (pts.map fun e => e.equity) i * 100 } := by
  induction pts with
  | nil => intro p0 m0 c0; simp
  | cons e es ih =>
    intro p0 m0 c0
    rw [List.foldl_cons, ddStep_eq, ih]
    rw [List.length_cons, List.range_succ_eq_map, List.map_cons, List.map_map,
      List.append_assoc, List.singleton_append]
    have hfun : ((fun i =>
          ({ time := ((e :: es).getD i default).time,
             drawdown := (runningPeak p0 ((e :: es).map fun x => x.equity) i -
                 ((e :: es).map fun x => x.equity).getD i 0) /
               runningPeak p0 ((e :: es).map fun x => x.equity) i * 100 } :
            DrawdownPoint)) ∘ Nat.succ) =
        (fun i =>
          ({ time := (es.getD i default).time,
             drawdown := (runningPeak (max p0 e.equity) (es.map fun x => x.equity) i -
                 (es.map fun x => x.equity).getD i 0) /
               runningPeak (max p0 e.equity) (es.map fun x => x.equity) i * 100 } :
            DrawdownPoint)) := by
      funext i
      simp only [Function.comp]
      rw [List.map_cons, runningPeak_succ_cons, List.getD_cons_succ, List.getD_cons_succ]
    rw [hfun]
    rw [List.map_cons, runningPeak_zero_cons, List.getD_cons_zero, List.getD_cons_zero]

/-- Claim C4 (amended): in the final report, each drawdown-curve point is
indeed (running-peak minus equity) over the running peak at that bar,
times 100, and maxDrawdown is the maximum absolute running-peak-to-equity
gap; but maxDrawdownPercent divides that maximum absolute drawdown by the
final running peak of the whole curve, not by the peak at the point where
it occurred, so it can differ from the maximum value on the drawdown
curve. -/
theorem claim_C4 (cfg : EngineConfig) (st : EngineState) :
    (generateResult cfg st).maxDrawdown =
      maxAbsDrawdown cfg.initialCapital (st.equityCurve.map fun e => e.equity) ∧
    (generateResult cfg st).maxDrawdownPercent =
      maxAbsDrawdown cfg.initialCapital (st.equityCurve.map fun e => e.equity) /
        finalPeak cfg.initialCapital (st.equityCurve.map fun e => e.equity) * 100 ∧
    (generateResult cfg st).drawdownCurve =
      (List.range st.equityCurve.length).map fun i =>
        { time := (st.equityCurve.getD i default).time,
          drawdown := (runningPeak cfg.initialCapital (st.equityCurve.map fun e => e.equity) i -
              (st.equityCurve.map fun e => e.equity).getD i 0) /
            runningPeak cfg.initialCapital (st.equityCurve.map fun e => e.equity) i * 100 } := by
  have h1 : (generateResult cfg st).maxDrawdown =
      (st.equityCurve.foldl ddStep (cfg.initialCapital, 0, [])).2.1 := rfl
  have h2 : (generateResult cfg st).maxDrawdownPercent =
      (st.equityCurve.foldl ddStep (cfg.initialCapital, 0, [])).2.1 /
        (st.equityCurve.foldl ddStep (cfg.initialCapital, 0, [])).1 * 100 := rfl
  have h3 : (generateResult cfg st).drawdownCurve =
      (st.equityCurve.foldl ddStep (cfg.initialCapital, 0, [])).2.2 := rfl
  refine ⟨?_, ?_, ?_⟩
  · rw [h1, ddFold_snd]
    unfold maxAbsDrawdown
    rw [List.length_map]
  · rw [h2, ddFold_snd, ddFold_fst]
    unfold maxAbsDrawdown finalPeak
    rw [List.length_map]
  · rw [h3, ddFold_thd, List.nil_append]

theorem timesMono_getD (klines : List Kline) (h : timesMono klines) (i j : ℕ)
    (hij : i ≤ j) (hj : j < klines.length) :
    (klines.getD i default).openTime ≤ (klines.getD j default).openTime := by
  rcases Nat.eq_or_lt_of_le hij with rfl | hlt
  · exact le_refl _
  · have hi : i < klines.length := Nat.lt_trans hlt hj
    have hR := List.pairwise_iff_getElem.mp h i j hi hj hlt
    rw [List.getD_eq_getElem?_getD, List.getD_eq_getElem?_getD,
      List.getElem?_eq_getElem hi, List.getElem?_eq_getElem hj]
    exact hR

theorem processBar_inv (cfg : EngineConfig) (oracle : Oracle) (klines : List Kline)
    (st : EngineState) (i : ℕ) (hmono : timesMono klines) (hi : i < klines.length)
    (h1 : tradesOK st) (h2 : posOK klines i st) :
    tradesOK (processBar cfg oracle klines st i) ∧
      posOK klines (i + 1) (processBar cfg oracle klines st i) := by
  have hcs : tradesOK (closeStep cfg klines st i) ∧
      ((closeStep cfg klines st i).currentPosition = st.currentPosition ∨
        (closeStep cfg klines st i).currentPosition = none) := by
    unfold closeStep
    rcases hp : st.currentPosition with _ | p
    · exact ⟨h1, Or.inr hp⟩
    · rcases hc : checkStopLossTakeProfit (some p) (klines.getD i default) with _ | r
      · exact ⟨h1, Or.inl hp⟩
      · dsimp only
        rw [closePosition_eq cfg st _ r p hp]
        constructor
        · intro t ht
          dsimp only at ht
          rcases List.mem_append.mp ht with hmem | hmem
          · exact h1 t hmem
          · have ht' : t = mkCloseTrade cfg p (klines.getD i default) r :=
              List.mem_singleton.mp hmem
            rw [ht']
            show p.entryTime ≤ (klines.getD i default).openTime
            obtain ⟨j, hjlen, hji, hje⟩ := h2 p hp
            rw [hje]
            exact timesMono_getD klines hmono j i (le_of_lt hji) hi
        · right
          rfl
  have hos : tradesOK (openStep cfg oracle klines (closeStep cfg klines st i) i) ∧
      posOK klines (i + 1) (openStep cfg oracle klines (closeStep cfg klines st i) i) := by
    unfold openStep
    split
    · constructor
      · intro t ht
        rw [tryOpenPosition_trades] at ht
        exact hcs.1 t ht
      · intro q hq
        rcases tryOpenPosition_position cfg oracle (closeStep cfg klines st i)
            ((klines.drop (i - 200)).take 200) (klines.getD i default) i with heq | heq
        · rw [heq] at hq
          rw [‹(closeStep cfg klines st i).currentPosition = none›] at hq
          cases hq
        · rw [heq] at hq
          obtain rfl := (Option.some.injEq _ _).mp hq
          exact ⟨i, hi, Nat.lt_succ_self i, rfl⟩
    · constructor
      · exact hcs.1
      · intro q hq
        rcases hcs.2 with hsame | hnone
        · rw [hsame] at hq
          obtain ⟨j, hjl, hji, hje⟩ := h2 q hq
          exact ⟨j, hjl, Nat.lt_succ_of_lt hji, hje⟩
        · rw [hnone] at hq
          cases hq
  exact ⟨hos.1, fun q hq => hos.2 q hq⟩

theorem runLoop_inv (cfg : EngineConfig) (oracle : Oracle) (klines : List Kline)
    (hmono : timesMono klines) :
    ∀ (n s : ℕ) (st : EngineState), s + n ≤ klines.length →
      tradesOK st → posOK klines s st →
      tradesOK ((List.range' s n).foldl (processBar cfg oracle klines) st) ∧
        posOK klines (s + n) ((List.range' s n).foldl (processBar cfg oracle klines) st) := by
  intro n
  induction n with
  | zero =>
    intro s st _ h1 h2
    exact ⟨h1, h2⟩
  | succ m ih =>
    intro s st hs h1 h2
    have hi : s < klines.length := by omega
    have hstep := processBar_inv cfg oracle klines st s hmono hi h1 h2
    have hrest := ih (s + 1) (processBar cfg oracle klines st s) (by omega) hstep.1 hstep.2
    have hrange : List.range' s (m + 1) = s :: List.range' (s + 1) m := rfl
    rw [hrange, List.foldl_cons]
    have hb : s + (m + 1) = s + 1 + m := by omega
    rw [hb]
    exact hrest

theorem getLastD_eq_getD (k0 : Kline) (rest : List Kline) :
    (k0 :: rest).getLastD k0 = (k0 :: rest).getD ((k0 :: rest).length - 1) default := by
  have hlt : (k0 :: rest).length - 1 < (k0 :: rest).length := by
    simp only [List.length_cons]
    omega
  rw [List.getLastD_eq_getLast?, List.getLast?_eq_getElem?, List.getD_eq_getElem?_getD,
    List.getElem?_eq_getElem hlt]
  rfl

/-- Claim C8 (amended): with bars ordered by non-decreasing open time,
every trade of a completed run satisfies exitTime at or after entryTime;
strict inequality can fail, because a position opened on the final bar is
force-closed against that same bar with the same timestamp. -/
theorem claim_C8 (cfg : EngineConfig) (oracle : Oracle) (klines : List Kline)
    (hmono : timesMono klines) :
    ∀ t ∈ resultTrades (run cfg oracle klines), t.entryTime ≤ t.exitTime := by
  intro t ht
  rcases klines with _ | ⟨k0, rest⟩
  · cases ht
  · have hres : resultTrades (run cfg oracle (k0 :: rest)) =
        (match (runLoop cfg oracle (k0 :: rest) (initState cfg k0)).currentPosition with
         | some _ => closePosition cfg (runLoop cfg oracle (k0 :: rest) (initState cfg k0))
             ((k0 :: rest).getLastD k0) .BACKTEST_END
         | none => runLoop cfg oracle (k0 :: rest) (initState cfg k0)).trades := by
      rw [run_cons]
      rfl
    by_cases hlen : (k0 :: rest).length < 200
    · have hz : (k0 :: rest).length - 200 = 0 := by omega
      have hloop : runLoop cfg oracle (k0 :: rest) (initState cfg k0) = initState cfg k0 := by
        unfold runLoop
        rw [hz]
        rfl
      rw [hloop] at hres
      dsimp only [initState] at hres
      rw [hres] at ht
      cases ht
    · have hinv := runLoop_inv cfg oracle (k0 :: rest) hmono ((k0 :: rest).length - 200) 200
        (initState cfg k0) (by omega) (fun t ht => by cases ht) (fun p hp => by cases hp)
      have hloopdef : (List.range' 200 ((k0 :: rest).length - 200)).foldl
          (processBar cfg oracle (k0 :: rest)) (initState cfg k0) =
          runLoop cfg oracle (k0 :: rest) (initState cfg k0) := rfl
      rw [hloopdef] at hinv
      rcases hpos : (runLoop cfg oracle (k0 :: rest) (initState cfg k0)).currentPosition
        with _ | p
      · rw [hpos] at hres
        dsimp only at hres
        rw [hres] at ht
        exact hinv.1 t ht
      · rw [hpos] at hres
        dsimp only at hres
        rw [closePosition_eq cfg _ _ .BACKTEST_END p hpos] at hres
        rw [hres] at ht
        dsimp only at ht
        rcases List.mem_append.mp ht with hmem | hmem
        · exact hinv.1 t hmem
        · have ht' : t = mkCloseTrade cfg p ((k0 :: rest).getLastD k0) .BACKTEST_END :=
            List.mem_singleton.mp hmem
          rw [ht']
          show p.entryTime ≤ ((k0 :: rest).getLastD k0).openTime
          obtain ⟨j, hjl, _, hje⟩ := hinv.2 p hpos
          rw [hje, getLastD_eq_getD]
          exact timesMono_getD (k0 :: rest) hmono j ((k0 :: rest).length - 1) (by omega) (by omega)

/-- Claim C7 (amended): each indicator output has the length of its
input; the simple and exponential moving averages and all three
volatility-band series carry the unavailable marker strictly before index
period - 1 and numeric values from period - 1 on; the RSI-style
oscillator carries the marker strictly before index period and is numeric
only from index period on, one bar later than the claim states, since it
needs period price changes. -/
theorem claim_C7 (data : List ℚ) (period : ℕ) (stdDev : ℚ) (_hp : 1 ≤ period) :
    warmupContract (calculateSMA data period) data.length (period - 1) ∧
    warmupContract (calculateEMA data period) data.length (period - 1) ∧
    warmupContract (calculateBollingerBands data period stdDev).1 data.length (period - 1) ∧
    warmupContract (calculateBollingerBands data period stdDev).2.1 data.length (period - 1) ∧
    warmupContract (calculateBollingerBands data period stdDev).2.2 data.length (period - 1) ∧
    warmupContract (calculateRSI data period) data.length period :=
  ⟨calculateSMA_contract data period, calculateEMA_contract data period,
   calculateBollingerBands_upper_contract data period stdDev,
   calculateBollingerBands_middle_contract data period stdDev,
   calculateBollingerBands_lower_contract data period stdDev,
   calculateRSI_contract data period⟩

/-- Counterexample to claim C7 as stated: for the RSI-style oscillator on
three prices with period 2, index period - 1 = 1 still carries the NaN
marker, where the claim requires a numeric value. -/
theorem claim_C7_counterexample :
    ¬ warmupContract (calculateRSI [1, 2, 3] 2) 3 (2 - 1) :=
  of_decide_eq_true (by with_unfolding_all rfl)

/-- Witness for claim C7 at four prices and period 2. -/
theorem claim_C7_witness :
    1 ≤ 2 ∧
    (warmupContract (calculateSMA [1, 2, 3, 4] 2) 4 (2 - 1) ∧
     warmupContract (calculateEMA [1, 2, 3, 4] 2) 4 (2 - 1) ∧
     warmupContract (calculateBollingerBands [1, 2, 3, 4] 2 2).1 4 (2 - 1) ∧
     warmupContract (calculateBollingerBands [1, 2, 3, 4] 2 2).2.1 4 (2 - 1) ∧
     warmupContract (calculateBollingerBands [1, 2, 3, 4] 2 2).2.2 4 (2 - 1) ∧
     warmupContract (calculateRSI [1, 2, 3, 4] 2) 4 2) :=
  ⟨by decide, claim_C7 [1, 2, 3, 4] 2 2 (by decide)⟩

/-- Witness for claim C1: a long with stop 95 and take-profit 105 on a
bar with low 90 and high 110 closes with reason STOP_LOSS. -/
theorem claim_C1_witness :
    positionState.currentPosition = some openPositionSample ∧
    (wideBar.low ≤ openPositionSample.stopLoss ∧
      openPositionSample.takeProfit ≤ wideBar.high) ∧
    checkStopLossTakeProfit positionState.currentPosition wideBar = some .STOP_LOSS ∧
    (∃ t, (processBar sampleConfig constantBuyOracle [wideBar] positionState 0).trades =
      positionState.trades ++ [t] ∧ t.reason = .STOP_LOSS) := by
  have h := claim_C1 sampleConfig constantBuyOracle [wideBar] positionState 0
    openPositionSample rfl ⟨by decide, by decide⟩
  exact ⟨rfl, by decide, h.1, h.2⟩

/-- Witness for claim C2: the pnl and commission formulas at the sample
close, and the entry-commission deduction at a sample open. -/
theorem claim_C2_witness :
    positionState.currentPosition = some openPositionSample ∧
    (∃ t, (closePosition sampleConfig positionState wideBar .STOP_LOSS).trades =
        positionState.trades ++ [t] ∧
      t.commission = openPositionSample.quantity * t.exitPrice * sampleConfig.commission ∧
      t.pnl = (match openPositionSample.side with
          | .LONG => (t.exitPrice - openPositionSample.entryPrice) /
              openPositionSample.entryPrice
          | .SHORT => (openPositionSample.entryPrice - t.exitPrice) /
              openPositionSample.entryPrice) *
        (openPositionSample.quantity * openPositionSample.entryPrice) *
        openPositionSample.leverage - t.commission) ∧
    (∃ q, (tryOpenPosition sampleConfig constantBuyOracle flatState [] (flatBar 0) 0).currentPosition
        = some q ∧
      (tryOpenPosition sampleConfig constantBuyOracle flatState [] (flatBar 0) 0).currentCapital =
        flatState.currentCapital - q.quantity * q.entryPrice * sampleConfig.commission) := by
  refine ⟨rfl, claim_C2.1 sampleConfig positionState wideBar .STOP_LOSS openPositionSample rfl, ?_⟩
  exact claim_C2.2 sampleConfig constantBuyOracle flatState [] (flatBar 0) 0
    (by decide) (of_decide_eq_true (by with_unfolding_all rfl))
    (of_decide_eq_true (by with_unfolding_all rfl)) (by decide) (by decide)

/-- Witness for claim C3: exit prices at the sample close for all three
reasons, and the forced end-of-series close of the 201-bar run. -/
theorem claim_C3_witness :
    positionState.currentPosition = some openPositionSample ∧
    ((∃ t, (closePosition sampleConfig positionState wideBar .STOP_LOSS).trades =
        positionState.trades ++ [t] ∧
      t.reason = .STOP_LOSS ∧ t.exitPrice = openPositionSample.stopLoss) ∧
     (∃ t, (closePosition sampleConfig positionState wideBar .TAKE_PROFIT).trades =
        positionState.trades ++ [t] ∧
      t.reason = .TAKE_PROFIT ∧ t.exitPrice = openPositionSample.takeProfit) ∧
     (∃ t, (closePosition sampleConfig positionState wideBar .BACKTEST_END).trades =
        positionState.trades ++ [t] ∧
      t.reason = .BACKTEST_END ∧
      t.exitPrice = (match openPositionSample.side with
        | .LONG => wideBar.close * (1 - sampleConfig.slippage)
        | .SHORT => wideBar.close * (1 + sampleConfig.slippage)))) ∧
    (∃ t r, run sampleConfig constantBuyOracle lastBarSeries = .ok r ∧
      r.trades = (runLoop sampleConfig constantBuyOracle lastBarSeries
        (initState sampleConfig (flatBar 0))).trades ++ [t] ∧
      t.reason = .BACKTEST_END ∧
      t.exitTime = (lastBarSeries.getLastD (flatBar 0)).openTime ∧
      t.exitPrice = (match t.side with
        | .LONG => (lastBarSeries.getLastD (flatBar 0)).close * (1 - sampleConfig.slippage)
        | .SHORT => (lastBarSeries.getLastD (flatBar 0)).close * (1 + sampleConfig.slippage))) := by
  refine ⟨rfl, claim_C3.1 sampleConfig positionState wideBar openPositionSample rfl, ?_⟩
  exact claim_C3.2 sampleConfig constantBuyOracle (flatBar 0) lastBarSeriesTail
    lastBarOpenPosition (by with_unfolding_all rfl)

/-- Counterexample to claim C4 as stated: on the 204-bar run, the
reported maxDrawdownPercent differs from the maximum value on the
drawdown curve, and some drawdown-curve point strictly exceeds it. -/
theorem claim_C4_counterexample :
    ((run sampleConfig constantBuyOracle drawdownSeries).toOption.map fun r =>
      decide (r.maxDrawdownPercent = drawdownCurveMax r)) = some false ∧
    ((run sampleConfig constantBuyOracle drawdownSeries).toOption.map fun r =>
      r.drawdownCurve.any fun p => decide (r.maxDrawdownPercent < p.drawdown)) = some true :=
  ⟨of_decide_eq_true (by with_unfolding_all rfl),
   of_decide_eq_true (by with_unfolding_all rfl)⟩

/-- Counterexample to claim C5 as stated: a 100-bar series, shorter than
the 200-bar warm-up window, does not fail: the run completes and returns
a report. -/
theorem claim_C5_counterexample :
    shortSeries.length = 100 ∧ shortSeries.length < 200 ∧
    (run sampleConfig constantBuyOracle shortSeries).toOption.isSome = true := by
  refine ⟨by decide, by decide, ?_⟩
  exact of_decide_eq_true (by with_unfolding_all rfl)

/-- Witness for claim C5 at a one-bar series. -/
theorem claim_C5_witness :
    (flatBar 0 :: []).length ≤ 200 ∧
    (∃ r, run sampleConfig constantBuyOracle (flatBar 0 :: []) = .ok r ∧ r.trades = [] ∧
      r.finalCapital = sampleConfig.initialCapital ∧
      r.equityCurve = [{ time := (flatBar 0).openTime, equity := sampleConfig.initialCapital }] ∧
      r.totalTrades = 0) :=
  ⟨by decide, claim_C5.2 sampleConfig constantBuyOracle (flatBar 0) [] (by decide)⟩

/-- Counterexample to claim C6 as stated: with 10 capital, a 20 percent
position at 1x leverage has notional value 2, far below the 20-dollar
floor, yet the backtest engine opens the position. -/
theorem claim_C6_counterexample :
    ((tryOpenPosition sampleConfig lowNotionalOracle lowCapitalState [] smallBar 0).currentPosition.map
      fun p => p.quantity * p.leverage * p.entryPrice) = some 2 ∧ ¬ (20 : ℚ) ≤ 2 :=
  ⟨of_decide_eq_true (by with_unfolding_all rfl),
   of_decide_eq_true (by with_unfolding_all rfl)⟩

/-- Witness for claim C6: the live path submits the sample order, whose
notional 60 meets the floor, and the backtest path opens the sample
position. -/
theorem claim_C6_witness :
    executeOrder ("TEST") sampleBuyDecision 100 100 = .ok sampleOrder ∧
    20 ≤ (100 : ℚ) * (sampleBuyDecision.positionSize.getD 20) / 100 *
      (sampleBuyDecision.leverage.getD 3) ∧
    (tryOpenPosition sampleConfig constantBuyOracle flatState [] (flatBar 0) 0).currentPosition =
      some (mkOpenPosition sampleConfig flatState.currentCapital (flatBar 0)
        (constantBuyOracle (buildAIInput sampleConfig flatState [] (flatBar 0) 0))) := by
  have hord : executeOrder ("TEST") sampleBuyDecision 100 100 = .ok sampleOrder := by
    with_unfolding_all rfl
  refine ⟨hord, claim_C6.1 ("TEST") sampleBuyDecision 100 100 sampleOrder hord, ?_⟩
  exact claim_C6.2 sampleConfig constantBuyOracle flatState [] (flatBar 0) 0
    (by decide) (by decide)

/-- Counterexample to claim C8 as stated: on the 201-bar series with
strictly increasing open times, the constant BUY oracle opens on the
final processed bar and the force-close records a trade whose exitTime
equals its entryTime, not strictly greater. -/
theorem claim_C8_counterexample :
    ((run sampleConfig constantBuyOracle lastBarSeries).toOption.map fun r =>
      r.trades.map fun t => (t.entryTime, t.exitTime)) = some [(200, 200)] ∧
    lastBarSeries.Pairwise (fun a b => a.openTime < b.openTime) := by
  constructor
  · exact of_decide_eq_true (by with_unfolding_all rfl)
  · decide

/-- Witness for claim C8 on the 201-bar run, whose single trade has equal
entry and exit times. -/
theorem claim_C8_witness :
    timesMono lastBarSeries ∧
    (∀ t ∈ resultTrades (run sampleConfig constantBuyOracle lastBarSeries),
      t.entryTime ≤ t.exitTime) := by
  have hmono : timesMono lastBarSeries := by decide
  exact ⟨hmono, claim_C8 sampleConfig constantBuyOracle lastBarSeries hmono⟩

/-- Counterexample to claim C9 as stated: a response with action BUY, a
non-numeric confidence (a nested object) and a non-empty reasoning is not
degraded to HOLD with confidence 0: the action is copied through and the
confidence becomes NaN, outside the 0 to 100 range. -/
theorem claim_C9_counterexample :
    (parseDecision (some cexDecisionJson)).action = .jstr ("BUY") ∧
    (parseDecision (some cexDecisionJson)).confidence = .nan ∧
    parseDecision (some cexDecisionJson) ≠ parseFallback :=
  ⟨of_decide_eq_true (by with_unfolding_all rfl),
   of_decide_eq_true (by with_unfolding_all rfl),
   of_decide_eq_true (by with_unfolding_all rfl)⟩

/-- Witness for claim C9 at three concrete decision objects: a falsy
action falls back to HOLD, confidence 150 clamps to 100 with in-range
defaults for the optional fields, and a string confidence passes through
as NaN. -/
theorem claim_C9_witness :
    parseDecision (some fallbackDecisionJson) = parseFallback ∧
    ((parseDecision (some clampDecisionJson)).confidence = .num (max 0 (min 100 150)) ∧
      0 ≤ max 0 (min 100 (150 : ℚ)) ∧ max 0 (min 100 (150 : ℚ)) ≤ 100) ∧
    (∃ v : ℚ, (parseDecision (some clampDecisionJson)).positionSize = .num v ∧
      1 ≤ v ∧ v ≤ 100) ∧
    (∃ v : ℚ, (parseDecision (some clampDecisionJson)).leverage = .num v ∧
      1 ≤ v ∧ v ≤ 30) ∧
    ((parseDecision (some nanDecisionJson)).action = nanDecisionJson.action.getD .jnull ∧
      (parseDecision (some nanDecisionJson)).confidence = .nan) := by
  refine ⟨claim_C9.2.1 fallbackDecisionJson (by decide), ?_, ?_, ?_, ?_⟩
  · exact claim_C9.2.2.1 clampDecisionJson 150 (by decide) rfl
  · exact claim_C9.2.2.2.1 clampDecisionJson (by decide) (Or.inl rfl)
  · exact claim_C9.2.2.2.2.1 clampDecisionJson (by decide) (Or.inl rfl)
  · exact claim_C9.2.2.2.2.2 nanDecisionJson (by decide) (by decide)

end AItradeQ
